import Mathlib

set_option maxHeartbeats 1000000
set_option linter.unusedVariables false

namespace XianLinter

/-!
Shallow embedding of the `xian-linter` repository (files `linter.py` and
`custom.py`).  Pure fragments of the Python code become Lean functions;
the stateful AST visitor of `custom.py` becomes explicit state passing in
an `Except`-monad (Python exceptions become `Except.error`); Python `str`
values become Lean `String`/`List Char`; Python non-negative ints become
`Nat` and ints that may go negative become `Int`.
-/

/-- Python whitespace characters recognized by `str.strip()` and by the
regex class `\s` (ASCII range; no message built by the system contains
non-ASCII whitespace). -/
def isPySpace (c : Char) : Bool :=
  c = ' ' || c = '\t' || c = '\n' || c = '\x0b' || c = '\x0c' || c = '\r'

/-- Python `str.strip()` restricted to the ASCII whitespace class. -/
def pyStrip (s : String) : String :=
  String.mk (((s.data.dropWhile isPySpace).reverse.dropWhile isPySpace).reverse)

/-- Decimal digit character for `d < 10`. -/
def digitChar (d : Nat) : Char := Char.ofNat (48 + d)

/-- Decimal digits of a natural number, most significant first: the
rendering `"{}".format(n)` / `str(n)` produces for a non-negative int.
Structurally recursive on a fuel argument so that it reduces inside the
kernel; `n + 1` units of fuel always exceed the digit count. -/
def natDigitsF : Nat → Nat → List Char
  | 0, _ => []
  | fuel + 1, n =>
    if n < 10 then [digitChar n]
    else natDigitsF fuel (n / 10) ++ [digitChar (n % 10)]

/-- Decimal digits of `n`, most significant first. -/
def natDigits (n : Nat) : List Char := natDigitsF (n + 1) n

/-- `str(n)` for a Python non-negative int. -/
def natRepr (n : Nat) : String := String.mk (natDigits n)

/-- `int(ds)` for a nonempty string of decimal digits. -/
def charsToNat (ds : List Char) : Nat :=
  ds.foldl (fun a c => 10 * a + (c.toNat - 48)) 0

/-- Python `needle in haystack` substring containment. -/
def containsSubstr (haystack needle : List Char) : Bool :=
  (List.range (haystack.length + 1)).any
    (fun i => (haystack.drop i).take needle.length == needle)

/-- Strip a literal prefix if present, as `line[len(prefix):]` guarded by
`line.startswith(prefix)` does. -/
def stripPrefixIf (pre : List Char) (l : List Char) : List Char :=
  if l.take pre.length = pre then l.drop pre.length else l

/-- `linter.py` `Position`: 0-based line/column.  Values are Python ints
(the parsers subtract 1, which can go negative on adversarial text), so
the fields are `Int`. -/
structure Position where
  line : Int
  column : Int
deriving DecidableEq, Repr

/-- `linter.py` `LintError`: the unified violation shape. -/
structure LintError where
  message : String
  severity : String
  position : Option Position
deriving DecidableEq, Repr

/-- `standardize_error_message`: `re.sub(r'\s*\(<unknown>,\s*line\s*\d+\)$', '', message)`.
The pattern is end-anchored, so at most one (the leftmost-starting, i.e.
maximal-whitespace) match is removed.  Implemented by parsing the reversed
character list: `")"`, digits, `\s*`, `"line"` reversed, `\s*`,
`"(<unknown>,"` reversed, `\s*`. -/
def standardize_error_message (message : String) : String :=
  match message.data.reverse with
  | ')' :: r1 =>
    let ds := r1.takeWhile Char.isDigit
    let r2 := r1.dropWhile Char.isDigit
    if ds.isEmpty then message
    else
      let r3 := r2.dropWhile isPySpace
      if r3.take 4 = ['e', 'n', 'i', 'l'] then
        let r4 := (r3.drop 4).dropWhile isPySpace
        if r4.take 11 = [',', '>', 'n', 'w', 'o', 'n', 'k', 'n', 'u', '<', '('] then
          String.mk (((r4.drop 11).dropWhile isPySpace).reverse)
        else message
      else message
  | _ => message

/-- `is_duplicate_error`: equal standardized messages, and positions either
both absent or both present with equal line and column. -/
def is_duplicate_error (error1 error2 : LintError) : Bool :=
  let msg1 := standardize_error_message error1.message
  let msg2 := standardize_error_message error2.message
  if msg1 ≠ msg2 then false
  else if error1.position.isSome != error2.position.isSome then false
  else
    match error1.position, error2.position with
    | some p1, some p2 => p1.line == p2.line && p1.column == p2.column
    | _, _ => true

/-- `deduplicate_errors`: left-to-right scan; each error's message is
standardized in place; an error is appended only when it duplicates no
already-kept error. -/
def deduplicate_errors (errors : List LintError) : List LintError :=
  errors.foldl
    (fun unique_errors error =>
      let error := { error with message := standardize_error_message error.message }
      if unique_errors.any (fun existing => is_duplicate_error error existing) then
        unique_errors
      else unique_errors ++ [error])
    []

/-- The regex tail `\s*(.+)`: greedy whitespace, then a nonempty run of
non-newline characters; when everything after the whitespace is empty the
star backtracks to the last whitespace character `.` can match (anything
but `'\n'`).  Returns the `(.+)` group. -/
def matchSpacesDotPlus (r : List Char) : Option (List Char) :=
  let rest := r.dropWhile isPySpace
  if rest.isEmpty then
    match (r.takeWhile isPySpace).reverse.dropWhile (· = '\n') with
    | [] => none
    | c :: _ => some [c]
  else some (rest.takeWhile (· ≠ '\n'))

/-- `re.match` of `PYFLAKES_PATTERN = r'<string>:(\d+):(\d+):\s*(.+)'`:
returns the two numeral groups and the message group. -/
def pyflakesMatch (cs : List Char) : Option (Nat × Nat × List Char) :=
  if cs.take 9 = "<string>:".data then
    let r := cs.drop 9
    let d1 := r.takeWhile Char.isDigit
    if d1.isEmpty then none
    else
      match r.dropWhile Char.isDigit with
      | ':' :: r1 =>
        let d2 := r1.takeWhile Char.isDigit
        if d2.isEmpty then none
        else
          match r1.dropWhile Char.isDigit with
          | ':' :: r2 =>
            match matchSpacesDotPlus r2 with
            | some msg => some (charsToNat d1, charsToNat d2, msg)
            | none => none
          | _ => none
      | _ => none
  else none

/-- `parse_pyflakes_line`: strip an optional `"Pyflakes error: "` prefix,
match the pyflakes pattern, discard the diagnostic when its message
contains any whitelist substring, otherwise convert to the unified shape
with 0-based position. -/
def parse_pyflakes_line (line : String) (whitelist_patterns : List String) :
    Option LintError :=
  let cs := stripPrefixIf "Pyflakes error: ".data line.data
  match pyflakesMatch cs with
  | none => none
  | some (line_num, col, message) =>
    if whitelist_patterns.any (fun pattern => containsSubstr message pattern.data) then
      none
    else
      some ⟨String.mk message, "error", some ⟨(line_num : Int) - 1, (col : Int) - 1⟩⟩

/-- `re.match` of `CONTRACTING_PATTERN = r'Line (\d+):\s*(.+)'`: returns
the numeral group and the message group. -/
def contractingMatch (cs : List Char) : Option (Nat × List Char) :=
  if cs.take 5 = "Line ".data then
    let r := cs.drop 5
    let ds := r.takeWhile Char.isDigit
    if ds.isEmpty then none
    else
      match r.dropWhile Char.isDigit with
      | ':' :: r1 =>
        match matchSpacesDotPlus r1 with
        | some msg => some (charsToNat ds, msg)
        | none => none
      | _ => none
  else none

/-- `parse_contracting_line`: strip an optional
`"Contracting linter error: "` prefix; a match with line number 0 is a
global (position-less) error, any other match carries a position with
column 0; a non-match is returned position-less verbatim. -/
def parse_contracting_line (violation : String) : LintError :=
  let cs := stripPrefixIf "Contracting linter error: ".data violation.data
  match contractingMatch cs with
  | some (line_num, message) =>
    if line_num = 0 then ⟨String.mk message, "error", none⟩
    else ⟨String.mk message, "error", some ⟨(line_num : Int) - 1, 0⟩⟩
  | none => ⟨String.mk cs, "error", none⟩

/-- The per-line processing of `run_pyflakes`: each raw output line is
stripped, empty lines are skipped, and a line is appended exactly when
`parse_pyflakes_line` accepts it. -/
def runPyflakesLines (outputLines : List String) (whitelist_patterns : List String) :
    List LintError :=
  outputLines.foldl
    (fun errors line =>
      let line := pyStrip line
      if line.data.isEmpty then errors
      else
        match parse_pyflakes_line line whitelist_patterns with
        | some error => errors ++ [error]
        | none => errors)
    []

/-- The success path of `run_contracting_linter` given the Rule Engine's
`check` result (`None` for success, a violation list otherwise):
`if not violations: return []`, else parse each stripped nonempty line. -/
def runContractingPure (checkResult : Option (List String)) : List LintError :=
  match checkResult with
  | none => []
  | some violations =>
    if violations.isEmpty then []
    else
      (violations.filter (fun v => !(pyStrip v).data.isEmpty)).map
        (fun v => parse_contracting_line (pyStrip v))

/-- The success path of `lint_code`: concatenate the Stage-A errors with
the Rule-Engine errors, then deduplicate. -/
def lint_code_merged (pyflakesLines : List String) (checkResult : Option (List String))
    (whitelist_patterns : List String) : List LintError :=
  deduplicate_errors
    (runPyflakesLines pyflakesLines whitelist_patterns ++ runContractingPure checkResult)

/-- The `except LintingException` path of `lint_code`: strip the first
matching known prefix, return one position-less error. -/
def lint_code_failure (e : String) : List LintError :=
  let cs := e.data
  let cs :=
    if cs.take "Pyflakes error: ".data.length = "Pyflakes error: ".data then
      cs.drop "Pyflakes error: ".data.length
    else if cs.take "Contracting linter error: ".data.length = "Contracting linter error: ".data then
      cs.drop "Contracting linter error: ".data.length
    else cs
  [⟨String.mk cs, "error", none⟩]

/-- `linter.py` `LintResponse`. -/
structure LintResponse where
  success : Bool
  errors : List LintError
deriving DecidableEq, Repr

/-- The response construction shared by `lint_base64` and `lint_gzip`: on a
normal outcome `success = (len(errors) == 0)` over the merged error list;
an exception escaping the body becomes a single `"Processing error: ..."`
entry with `success = False`. -/
def lintEndpointResponse (outcome : Except String (List LintError)) : LintResponse :=
  match outcome with
  | .ok errors => ⟨errors.length == 0, errors⟩
  | .error e => ⟨false, [⟨"Processing error: " ++ e, "error", none⟩]⟩

/-!
### `custom.py`: the Contracting `Linter` (Rule Engine)

The visitor walks Python AST nodes.  `Node` covers every node kind whose
fields `custom.py` reads; other kinds are `OtherNode` carrying their class
name.  Wrapper nodes that no rule ever matches and whose only role is to
hold a payload (`ast.alias`, `ast.keyword`, `ast.expr_context`, operator
nodes) are not materialized as nodes: their payload sits in the parent
constructor, matching every field access the source performs
(`visit_Import`/`visit_ImportFrom` do not recurse into aliases, and
`_collect_function_defs`/`_final_checks` only look for
`FunctionDef`/`Import`/`ImportFrom` instances, which never occur inside
those wrappers).  Line numbers are `Nat`; CPython AST line numbers are
always ≥ 1.
-/

inductive Node where
  | Module (body : List Node)
  | FunctionDef (lineno : Nat) (name : String) (args : Node) (body : List Node)
      (decorator_list : List Node) (returns : Option Node)
  | AsyncFunctionDef (lineno : Nat) (name : String) (args : Node) (body : List Node)
      (decorator_list : List Node) (returns : Option Node)
  | ClassDef (lineno : Nat) (name : String) (body : List Node)
  | ImportNode (lineno : Nat) (names : List (String × Option String))
  | ImportFrom (lineno : Nat) (names : List (String × Option String))
  | Assign (lineno : Nat) (targets : List Node) (value : Node)
  | AugAssign (lineno : Nat) (target : Node) (value : Node)
  | NameNode (lineno : Nat) (id : String)
  | AttributeNode (lineno : Nat) (value : Node) (attr : String)
  | CallNode (lineno : Nat) (func : Node) (args : List Node)
      (keywords : List (Option String × Node))
  | NumNode (lineno : Nat) (n : Int)
  | TupleNode (lineno : Nat) (elts : List Node)
  | ArgumentsNode (args : List Node)
  | ArgNode (lineno : Nat) (arg : String) (ann : Option Node)
  | ExprStmt (lineno : Nat) (value : Node)
  | OtherNode (kind : String) (lineno : Option Nat) (children : List Node)

/-- The Python class name of a node (`type(node).__name__`). -/
def kindName : Node → String
  | .Module _ => "Module"
  | .FunctionDef _ _ _ _ _ _ => "FunctionDef"
  | .AsyncFunctionDef _ _ _ _ _ _ => "AsyncFunctionDef"
  | .ClassDef _ _ _ => "ClassDef"
  | .ImportNode _ _ => "Import"
  | .ImportFrom _ _ => "ImportFrom"
  | .Assign _ _ _ => "Assign"
  | .AugAssign _ _ _ => "AugAssign"
  | .NameNode _ _ => "Name"
  | .AttributeNode _ _ _ => "Attribute"
  | .CallNode _ _ _ _ => "Call"
  | .NumNode _ _ => "Num"
  | .TupleNode _ _ => "Tuple"
  | .ArgumentsNode _ => "arguments"
  | .ArgNode _ _ _ => "arg"
  | .ExprStmt _ _ => "Expr"
  | .OtherNode k _ _ => k

/-- `node.lineno`: `ast.Module` and `ast.arguments` have no `lineno`
attribute (reading it raises `AttributeError`). -/
def linenoOf : Node → Option Nat
  | .Module _ => none
  | .FunctionDef ln _ _ _ _ _ => some ln
  | .AsyncFunctionDef ln _ _ _ _ _ => some ln
  | .ClassDef ln _ _ => some ln
  | .ImportNode ln _ => some ln
  | .ImportFrom ln _ => some ln
  | .Assign ln _ _ => some ln
  | .AugAssign ln _ _ => some ln
  | .NameNode ln _ => some ln
  | .AttributeNode ln _ _ => some ln
  | .CallNode ln _ _ _ => some ln
  | .NumNode ln _ => some ln
  | .TupleNode ln _ => some ln
  | .ArgumentsNode _ => none
  | .ArgNode ln _ _ => some ln
  | .ExprStmt ln _ => some ln
  | .OtherNode _ ln _ => ln

/-- `ast.iter_child_nodes` in field order, used by `ast.walk`
(keyword/alias/context wrappers omitted as explained above; they contain
no `FunctionDef`/`Import`/`ImportFrom`, the only kinds `walk` users
match). -/
def childrenOf : Node → List Node
  | .Module body => body
  | .FunctionDef _ _ args body dec ret => args :: (body ++ dec ++ ret.toList)
  | .AsyncFunctionDef _ _ args body dec ret => args :: (body ++ dec ++ ret.toList)
  | .ClassDef _ _ body => body
  | .ImportNode _ _ => []
  | .ImportFrom _ _ => []
  | .Assign _ targets value => targets ++ [value]
  | .AugAssign _ target value => [target, value]
  | .NameNode _ _ => []
  | .AttributeNode _ value _ => [value]
  | .CallNode _ func args keywords => func :: (args ++ keywords.map Prod.snd)
  | .NumNode _ _ => []
  | .TupleNode _ elts => elts
  | .ArgumentsNode args => args
  | .ArgNode _ _ ann => ann.toList
  | .ExprStmt _ value => [value]
  | .OtherNode _ _ children => children

mutual

/-- Total node count of a tree (every wrapper payload included), used as
a fuel bound for the breadth-first walk. -/
def nodeSize : Node → Nat
  | .Module body => 1 + nodeListSize body
  | .FunctionDef _ _ args body dec ret =>
    1 + nodeSize args + nodeListSize body + nodeListSize dec + nodeOptSize ret
  | .AsyncFunctionDef _ _ args body dec ret =>
    1 + nodeSize args + nodeListSize body + nodeListSize dec + nodeOptSize ret
  | .ClassDef _ _ body => 1 + nodeListSize body
  | .ImportNode _ _ => 1
  | .ImportFrom _ _ => 1
  | .Assign _ targets value => 1 + nodeListSize targets + nodeSize value
  | .AugAssign _ target value => 1 + nodeSize target + nodeSize value
  | .NameNode _ _ => 1
  | .AttributeNode _ value _ => 1 + nodeSize value
  | .CallNode _ func args keywords =>
    1 + nodeSize func + nodeListSize args + nodeKwSize keywords
  | .NumNode _ _ => 1
  | .TupleNode _ elts => 1 + nodeListSize elts
  | .ArgumentsNode args => 1 + nodeListSize args
  | .ArgNode _ _ ann => 1 + nodeOptSize ann
  | .ExprStmt _ value => 1 + nodeSize value
  | .OtherNode _ _ children => 1 + nodeListSize children

/-- Total node count of a node list. -/
def nodeListSize : List Node → Nat
  | [] => 0
  | x :: rest => nodeSize x + nodeListSize rest

/-- Total node count of a keyword list's values. -/
def nodeKwSize : List (Option String × Node) → Nat
  | [] => 0
  | (_, v) :: rest => nodeSize v + nodeKwSize rest

/-- Total node count of an optional node. -/
def nodeOptSize : Option Node → Nat
  | none => 0
  | some x => nodeSize x

end

/-- `ast.walk`: breadth-first (FIFO) traversal, produced level by level.
Structurally recursive on fuel; each nonempty level strictly shrinks the
total node count, so `nodeSize root + 1` units of fuel always suffice
(running out of fuel and reaching an empty level return the same `[]`). -/
def walkLevelsF : Nat → List Node → List Node
  | 0, _ => []
  | _ + 1, [] => []
  | fuel + 1, x :: rest => (x :: rest) ++ walkLevelsF fuel ((x :: rest).flatMap childrenOf)

/-- `ast.walk(root)` as a list in BFS order. -/
def walk (root : Node) : List Node := walkLevelsF (nodeSize root + 1) [root]

/-- `isinstance(node, ast.FunctionDef)`. -/
def isFunctionDef : Node → Bool
  | .FunctionDef _ _ _ _ _ _ => true
  | _ => false

/-- Constants the Linter imports from the external `contracting` package
(`contracting.compilation.whitelists` and `contracting.constants`), plus
the per-instance `builtins` list computed in `Linter.__init__` from
`sys.stdlib_module_names` and `sys.builtin_module_names`.  That package is
a dependency, not part of this repository, so the values are parameters;
`defaultConsts` below instantiates them for concrete runs. -/
structure Consts where
  VIOLATION_TRIGGERS : Nat → String
  ALLOWED_AST_TYPES : List String
  ILLEGAL_AST_TYPES : List String
  ILLEGAL_BUILTINS : List String
  ALLOWED_ANNOTATION_TYPES : List String
  ORM_CLASS_NAMES : List String
  VALID_DECORATORS : List String
  VALID_DECORATORS_REPR : String
  EXPORT_DECORATOR_STRING : String
  INIT_DECORATOR_STRING : String
  builtins : List String

/-- The mutable fields of a `Linter` instance that `_reset` reinitializes
(`self.builtins` is set once in `__init__`, never mutated, and lives in
`Consts`).  Python sets are modelled as insertion-ordered duplicate-free
lists (`setAdd`); within one process, runs that insert the same elements
in the same order iterate them in the same order, so list order is a
faithful deterministic stand-in.  The source field `return_annotation` is
named `return_ann` here. -/
structure St where
  _violations : List String
  _functions : List String
  _is_one_export : Bool
  _is_success : Bool
  _constructor_visited : Bool
  orm_names : List String
  visited_args : List (String × Nat)
  return_ann : List (Option String × Nat)
  arg_types : List (Option String × Nat)
deriving Repr, DecidableEq

/-- Python `set.add`. -/
def setAdd {α : Type} [DecidableEq α] (s : List α) (x : α) : List α :=
  if x ∈ s then s else s ++ [x]

/-- The fresh state `__init__`/`_reset` produce. -/
def resetSt : St := ⟨[], [], false, true, false, [], [], [], []⟩

/-- `Linter._reset`: reassigns every mutable field to its initial value,
independent of the previous state. -/
def _reset (s : St) : St := resetSt

/-- The one mutation pattern every rule uses: append a violation string
and set `self._is_success = False`. -/
def addViolation (m : String) (s : St) : St :=
  { s with _violations := s._violations ++ [m], _is_success := false }

/-- `v.startswith('_')`. -/
def startsWithChar (c : Char) (v : String) : Bool := v.data.head? == some c

/-- `v.endswith('_')`. -/
def endsWithChar (c : Char) (v : String) : Bool := v.data.getLast? == some c

/-- `Linter.ast_types` (defined in the source but never invoked by any
other method). -/
def ast_types (C : Consts) (tname : String) (lnum : Nat) (s : St) : St :=
  if tname ∉ C.ALLOWED_AST_TYPES then
    addViolation ("Line " ++ natRepr lnum ++ " : " ++ C.VIOLATION_TRIGGERS 0 ++ " : " ++ tname) s
  else s

/-- `Linter.not_system_variable`: names that start or end with `'_'`. -/
def not_system_variable (C : Consts) (v : String) (lnum : Nat) (s : St) : St :=
  if startsWithChar '_' v || endsWithChar '_' v then
    addViolation ("Line " ++ natRepr lnum ++ " : " ++ C.VIOLATION_TRIGGERS 1 ++ " : " ++ v) s
  else s

/-- `Linter.no_nested_imports`: one violation per import statement found
directly in the function body, attributed to the function's line. -/
def no_nested_imports (C : Consts) (lineno : Nat) (body : List Node) (s : St) : St :=
  body.foldl
    (fun s item =>
      match item with
      | .ImportFrom _ _ =>
        addViolation ("Line " ++ natRepr lineno ++ ": " ++ C.VIOLATION_TRIGGERS 2) s
      | .ImportNode _ _ =>
        addViolation ("Line " ++ natRepr lineno ++ ": " ++ C.VIOLATION_TRIGGERS 2) s
      | _ => s)
    s

/-- `Linter.annotation_types`: absent annotation, or annotation name not
in the allowed set. -/
def annotation_types (C : Consts) (t : Option String) (lnum : Nat) (s : St) : St :=
  match t with
  | none => addViolation ("Line " ++ natRepr lnum ++ " : " ++ C.VIOLATION_TRIGGERS 16) s
  | some ty =>
    if ty ∉ C.ALLOWED_ANNOTATION_TYPES then
      addViolation ("Line " ++ natRepr lnum ++ " : " ++ C.VIOLATION_TRIGGERS 15 ++ " : " ++ ty) s
    else s

/-- `Linter.check_return_types`: any present entry is a violation. -/
def check_return_types (C : Consts) (t : Option String) (lnum : Nat) (s : St) : St :=
  match t with
  | some ty =>
    addViolation ("Line " ++ natRepr lnum ++ " : " ++ C.VIOLATION_TRIGGERS 17 ++ " : " ++ ty) s
  | none => s

/-- The `"Line {}: " + VIOLATION_TRIGGERS[13]` message shared by the
runtime-token / illegal-builtin rules. -/
def msg13 (C : Consts) (lineno : Nat) : String :=
  "Line " ++ natRepr lineno ++ ": " ++ C.VIOLATION_TRIGGERS 13

/-- The head of `Linter.generic_visit`: flag node kinds in
`ILLEGAL_AST_TYPES` (reading `node.lineno` raises `AttributeError` on
kinds that lack it). -/
def gvHeader (C : Consts) (node : Node) (s : St) : Except String St :=
  if (kindName node) ∈ C.ILLEGAL_AST_TYPES then
    match linenoOf node with
    | some ln =>
      .ok (addViolation ("Line " ++ natRepr ln ++ ": " ++ C.VIOLATION_TRIGGERS 0) s)
    | none =>
      .error ("'" ++ kindName node ++ "' object has no attribute 'lineno'")
  else .ok s

/-- One step of the `for a in arguments.args` loop of
`visit_FunctionDef`: record the argument name, and for exported functions
record the annotation name (the `try/except AttributeError` reads
`a.annotation.id`, falling back to `a.annotation.value.id + '.' +
a.annotation.attr`; a fallback that fails again lets the
`AttributeError` escape `check`'s boundary). -/
def visitOneArg (lineno : Nat) (export_decorator : Bool) (s : St) (a : Node) :
    Except String St :=
  match a with
  | .ArgNode _ argName ann =>
    let s := { s with visited_args := setAdd s.visited_args (argName, lineno) }
    if export_decorator then
      match ann with
      | some (.NameNode _ annId) =>
        .ok { s with arg_types := setAdd s.arg_types (some annId, lineno) }
      | some (.AttributeNode _ (.NameNode _ vid) attr) =>
        .ok { s with arg_types := setAdd s.arg_types (some (vid ++ "." ++ attr), lineno) }
      | some (.AttributeNode _ v _) =>
        .error ("'" ++ kindName v ++ "' object has no attribute 'id'")
      | some other =>
        .error ("'" ++ kindName other ++ "' object has no attribute 'value'")
      | none =>
        .ok { s with arg_types := setAdd s.arg_types (none, lineno) }
    else .ok s
  | _ => .error ("'" ++ kindName a ++ "' object has no attribute 'arg'")

/-- The return-annotation block of `visit_FunctionDef` for an exported
function whose `node.returns` is present.  The source reuses the stale
loop variable `a` (the last argument) instead of `node.returns`: it adds
the last argument's annotation to `arg_types`, raising
`UnboundLocalError` when the function has no arguments and
`AttributeError` when the last argument is unannotated. -/
def staleReturnsBlock (lineno : Nat) (argList : List Node) (s : St) :
    Except String St :=
  match argList.getLast? with
  | none =>
    .error "cannot access local variable 'a' where it is not associated with a value"
  | some a =>
    match a with
    | .ArgNode _ _ ann =>
      match ann with
      | some (.NameNode _ annId) =>
        .ok { s with arg_types := setAdd s.arg_types (some annId, lineno) }
      | some (.AttributeNode _ (.NameNode _ vid) attr) =>
        .ok { s with arg_types := setAdd s.arg_types (some (vid ++ "." ++ attr), lineno) }
      | some (.AttributeNode _ v _) =>
        .error ("'" ++ kindName v ++ "' object has no attribute 'id'")
      | some other =>
        .error ("'" ++ kindName other ++ "' object has no attribute 'value'")
      | none => .error "'NoneType' object has no attribute 'value'"
    | _ => .error ("'" ++ kindName a ++ "' object has no attribute 'annotation'")

/-- One iteration of the decorator loop of `visit_FunctionDef`: resolve
the decorator to a simple name (simple `Name`, or `Call` of a simple
`Name`), flag an unresolvable or invalid decorator name, set the
export/constructor flags; the `Bool` component is the local
`export_decorator` flag. -/
def decoratorStep (C : Consts) (lineno : Nat) (acc : St × Bool) (d : Node) : St × Bool :=
  let s := acc.1
  let export_decorator := acc.2
  let decorator_name : Option String :=
    match d with
    | .NameNode _ did => some did
    | .CallNode _ (.NameNode _ fid) _ _ => some fid
    | _ => none
  match decorator_name with
  | none =>
    (addViolation ("Line " ++ natRepr lineno ++ ": " ++ C.VIOLATION_TRIGGERS 7) s,
     export_decorator)
  | some dn =>
    let s :=
      if dn ∉ C.VALID_DECORATORS then
        addViolation ("Line " ++ natRepr lineno ++ ": " ++ C.VIOLATION_TRIGGERS 7 ++
          ": Invalid decorator '" ++ dn ++ "'. Valid list: " ++ C.VALID_DECORATORS_REPR) s
      else s
    let acc2 : St × Bool :=
      if dn = C.EXPORT_DECORATOR_STRING then
        ({ s with _is_one_export := true }, true)
      else (s, export_decorator)
    let s := acc2.1
    let s :=
      if dn = C.INIT_DECORATOR_STRING then
        let s :=
          if s._constructor_visited then
            addViolation ("Line " ++ natRepr lineno ++ ": " ++ C.VIOLATION_TRIGGERS 8) s
          else s
        { s with _constructor_visited := true }
      else s
    (s, acc2.2)

/-- The decorator loop of `visit_FunctionDef` (`export_decorator` starts
out `False`). -/
def decoratorLoop (C : Consts) (lineno : Nat) (decorator_list : List Node)
    (s : St) : St × Bool :=
  decorator_list.foldl (decoratorStep C lineno) (s, false)

/-- The closure check of `visit_FunctionDef`: one violation per nested
function definition directly in the body (the surrounding `try/except`
wraps a loop that cannot raise). -/
def closuresCheck (C : Consts) (lineno : Nat) (body : List Node) (s : St) : St :=
  body.foldl
    (fun s inner =>
      match inner with
      | .FunctionDef _ _ _ _ _ _ =>
        addViolation ("Line " ++ natRepr lineno ++ ": " ++ C.VIOLATION_TRIGGERS 18) s
      | _ => s) s

/-- The loop of `visit_Import`: flag any imported module name that is in
the instance's `builtins` list. -/
def importBuiltinsCheck (C : Consts) (lineno : Nat)
    (names : List (String × Option String)) (s : St) : St :=
  names.foldl
    (fun s al => if al.1 ∈ C.builtins then addViolation (msg13 C lineno) s else s) s

/-- The storage-declaration analysis of `visit_Assign` for an assignment
whose value is a call: skipped entirely when the callee is an attribute
access; `AttributeError` (callee with no `.id`) and `IndexError` (empty
target list) escape; the `try/except AttributeError: pass` around
`orm_names.add(node.targets[0].id)` silences non-`Name` targets. -/
def assignOrmCheck (C : Consts) (lineno : Nat) (targets : List Node)
    (value : Node) (s : St) : Except String St :=
  match value with
  | .CallNode _ func _ keywords =>
    match func with
    | .AttributeNode _ _ _ => Except.ok s
    | .NameNode _ fid =>
      if fid ∈ C.ORM_CLASS_NAMES then
        let s :=
          if fid = "Variable" ∨ fid = "Hash" then
            let kwargs := keywords.map Prod.fst
            if (some "contract") ∈ kwargs ∨ (some "name") ∈ kwargs then
              addViolation ("Line " ++ natRepr lineno ++ ": " ++ C.VIOLATION_TRIGGERS 10) s
            else s
          else s
        let s :=
          if targets.any (fun t => kindName t == "Tuple") ∨ kindName value == "Tuple" then
            addViolation ("Line " ++ natRepr lineno ++ ": " ++ C.VIOLATION_TRIGGERS 11) s
          else s
        match targets.head? with
        | some (.NameNode _ tid) => Except.ok { s with orm_names := setAdd s.orm_names tid }
        | some _ => Except.ok s
        | none => Except.error "list index out of range"
      else Except.ok s
    | other => Except.error ("'" ++ kindName other ++ "' object has no attribute 'id'")
  | _ => Except.ok s

mutual

/-- `NodeVisitor.visit`: dispatch on the node's class.  Classes with a
dedicated `visit_...` method get their rule logic (inlined here branch by
branch); every other class falls through to plain `generic_visit`
behavior, which is `gvHeader` followed by visiting the children in field
order.  `visit_Import` and `visit_ImportFrom` return without recursing. -/
def visit (C : Consts) : Node → St → Except String St
  | n@(.Module body), s => do
    let s ← gvHeader C n s
    visitList C body s
  | n@(.NameNode lineno id), s => do
    -- visit_Name
    let s := not_system_variable C id lineno s
    let s := if id = "rt" then addViolation (msg13 C lineno) s else s
    let s := if id ∈ C.ILLEGAL_BUILTINS ∧ id ≠ "float" then addViolation (msg13 C lineno) s else s
    gvHeader C n s
  | n@(.AttributeNode lineno value attr), s => do
    -- visit_Attribute
    let s := not_system_variable C attr lineno s
    let s := if attr = "rt" then addViolation (msg13 C lineno) s else s
    let s ← gvHeader C n s
    visit C value s
  | .ImportNode lineno names, s =>
    -- visit_Import: no generic_visit, aliases are not traversed
    .ok (importBuiltinsCheck C lineno names s)
  | .ImportFrom lineno _, s =>
    -- visit_ImportFrom: no generic_visit
    .ok (addViolation ("Line " ++ natRepr lineno ++ ": " ++ C.VIOLATION_TRIGGERS 3) s)
  | n@(.ClassDef lineno _ body), s => do
    -- visit_ClassDef: flag, then still descend
    let s := addViolation ("Line " ++ natRepr lineno ++ ": " ++ C.VIOLATION_TRIGGERS 5) s
    let s ← gvHeader C n s
    visitList C body s
  | n@(.AsyncFunctionDef lineno _ args body dec ret), s => do
    -- visit_AsyncFunctionDef
    let s := addViolation ("Line " ++ natRepr lineno ++ ": " ++ C.VIOLATION_TRIGGERS 6) s
    let s ← gvHeader C n s
    let s ← visit C args s
    let s ← visitList C body s
    let s ← visitList C dec s
    visitOpt C ret s
  | n@(.Assign lineno targets value), s => do
    -- visit_Assign
    let s :=
      match value with
      | .NameNode _ vid =>
        if vid = "Hash" ∨ vid = "Variable" then addViolation (msg13 C lineno) s else s
      | _ => s
    let s ← assignOrmCheck C lineno targets value s
    let s ← gvHeader C n s
    let s ← visitList C targets s
    visit C value s
  | n@(.AugAssign _ target value), s => do
    -- visit_AugAssign: only generic_visit
    let s ← gvHeader C n s
    let s ← visit C target s
    visit C value s
  | n@(.CallNode lineno func args keywords), s => do
    -- visit_Call
    let s :=
      match func with
      | .NameNode _ fid => if fid ∈ C.ILLEGAL_BUILTINS then addViolation (msg13 C lineno) s else s
      | _ => s
    let s ← gvHeader C n s
    let s ← visit C func s
    let s ← visitList C args s
    visitKwValues C keywords s
  | n@(.NumNode _ _), s =>
    -- visit_Num: only generic_visit
    gvHeader C n s
  | n@(.FunctionDef lineno _ argsN body decorator_list returns), s => do
    -- visit_FunctionDef
    let s := no_nested_imports C lineno body s
    let s := closuresCheck C lineno body s
    let s :=
      if decorator_list.length > 1 then
        addViolation ("Line " ++ natRepr lineno ++ ": " ++ C.VIOLATION_TRIGGERS 9 ++
          ": Detected: " ++ natRepr decorator_list.length ++ " MAX limit: 1") s
      else s
    let acc := decoratorLoop C lineno decorator_list s
    let s := acc.1
    let export_decorator := acc.2
    -- arguments = node.args; for a in arguments.args: ...
    let argList ←
      match argsN with
      | .ArgumentsNode l => Except.ok l
      | other => Except.error ("'" ++ kindName other ++ "' object has no attribute 'args'")
    let s ← argList.foldlM (visitOneArg lineno export_decorator) s
    let s ←
      if export_decorator then
        match returns with
        | some _ => staleReturnsBlock lineno argList s
        | none => Except.ok { s with return_ann := setAdd s.return_ann (none, lineno) }
      else Except.ok s
    let s ← gvHeader C n s
    let s ← visit C argsN s
    let s ← visitList C body s
    let s ← visitList C decorator_list s
    visitOpt C returns s
  | n@(.TupleNode _ elts), s => do
    let s ← gvHeader C n s
    visitList C elts s
  | n@(.ArgumentsNode args), s => do
    let s ← gvHeader C n s
    visitList C args s
  | n@(.ArgNode _ _ ann), s => do
    let s ← gvHeader C n s
    visitOpt C ann s
  | n@(.ExprStmt _ value), s => do
    let s ← gvHeader C n s
    visit C value s
  | n@(.OtherNode _ _ children), s => do
    let s ← gvHeader C n s
    visitList C children s

/-- Visit a list of child nodes in order. -/
def visitList (C : Consts) : List Node → St → Except String St
  | [], s => pure s
  | x :: rest, s => do
    let s ← visit C x s
    visitList C rest s

/-- Visit the value nodes of a `Call`'s keyword list in order. -/
def visitKwValues (C : Consts) : List (Option String × Node) → St → Except String St
  | [], s => pure s
  | (_, v) :: rest, s => do
    let s ← visit C v s
    visitKwValues C rest s

/-- Visit an optional child node. -/
def visitOpt (C : Consts) : Option Node → St → Except String St
  | none, s => pure s
  | some x, s => visit C x s

end

/-- The alias bookkeeping of `_collect_function_defs`: record the alias
name, or the last dotted component of the module name. -/
def collectAliasStep (s : St) (al : String × Option String) : St :=
  match al.2 with
  | some asname => { s with _functions := s._functions ++ [asname] }
  | none => { s with _functions := s._functions ++ [((al.1.splitOn ".").getLastD al.1)] }

/-- One node of the `_collect_function_defs` walk. -/
def collectStep (s : St) (node : Node) : St :=
  match node with
  | .FunctionDef _ nm _ _ _ _ => { s with _functions := s._functions ++ [nm] }
  | .ImportNode _ names => names.foldl collectAliasStep s
  | .ImportFrom _ names => names.foldl collectAliasStep s
  | _ => s

/-- `Linter._collect_function_defs`: walk the whole tree, recording
function names and imported names into `self._functions` (a list no other
method reads). -/
def _collect_function_defs (root : Node) (s : St) : St :=
  (walk root).foldl collectStep s

/-- The line number of the first `FunctionDef` found by `ast.walk`. -/
def firstFunctionLine (tree : Node) : Option Nat :=
  match (walk tree).find? isFunctionDef with
  | some (.FunctionDef ln _ _ _ _ _) => some ln
  | _ => none

/-- One iteration of the storage/argument collision loop of
`_final_checks` (`orm` is `self.orm_names`, which the loop never
modifies). -/
def collisionStep (C : Consts) (orm : List String) (acc : St) (p : String × Nat) : St :=
  if p.1 ∈ orm then
    addViolation ("Line " ++ natRepr p.2 ++ ": " ++ C.VIOLATION_TRIGGERS 14) acc
  else acc

/-- `Linter._final_checks`: storage/argument collisions, the
export-presence check (attributed to the line before the first function
found by a full-tree walk), then annotation and return-annotation
validation over the recorded entries. -/
def _final_checks (C : Consts) (tree : Node) (s : St) : St :=
  let s1 := s.visited_args.foldl (collisionStep C s.orm_names) s
  let s2 :=
    match firstFunctionLine tree with
    | some ln =>
      if s1._is_one_export = false then
        addViolation ("Line " ++ natRepr (ln - 1) ++ ": " ++ C.VIOLATION_TRIGGERS 12) s1
      else s1
    | none => s1
  let s3 := s2.arg_types.foldl (fun acc p => annotation_types C p.1 p.2 acc) s2
  s3.return_ann.foldl (fun acc p => check_return_types C p.1 p.2 acc) s3

/-- The object `ast.parse` raises on malformed source; `check` also
accepts it as input and reports it via `isinstance(ast_tree, SyntaxError)`.
`text` stands for `str(e)`. -/
structure ParseFailure where
  lineno : Nat
  text : String

/-- The traversal phase of `check` on a parsed tree: reset, collect,
visit, finalize; any Python exception surfaces as `Except.error`. -/
def runTraversal (C : Consts) (st : St) (tree : Node) : Except String St := do
  let s := _reset st
  let s := _collect_function_defs tree s
  let s ← visit C tree s
  pure (_final_checks C tree s)

/-- `Linter.check`: the whole body runs under `try/except Exception`.
Returns `None` (modelled `none`) on success and the violation list
otherwise; a syntax-error input returns the one-element list immediately;
an escaping exception is captured as a single describing violation. -/
def check (C : Consts) (st : St) (input : Sum ParseFailure Node) : Option (List String) :=
  match input with
  | .inl se =>
    some ((_reset st)._violations ++ ["Line " ++ natRepr se.lineno ++ ": Syntax error: " ++ se.text])
  | .inr tree =>
    match runTraversal C st tree with
    | .ok s => if s._is_success = false then some s._violations else none
    | .error e => some ["Unexpected error during linting: " ++ e]

/-- Modelled from the spec: concrete stand-ins for the external
`contracting` package constants missing from this repository (the spec's
§3 reserved vocabulary, §4.1 rule catalog and §6 violation message
vocabulary name the markers `export`/`construct`, the storage primitives
`Variable`/`Hash`, and one message per rule; exact texts are not part of
this repository). -/
def defaultTriggers : Nat → String
  | 0 => "disallowed syntax element"
  | 1 => "reserved system name used"
  | 2 => "nested imports are banned"
  | 3 => "using import-from is banned"
  | 4 => "unused trigger"
  | 5 => "class definitions are banned"
  | 6 => "async function definitions are banned"
  | 7 => "invalid decorator used"
  | 8 => "duplicate constructor"
  | 9 => "too many decorators"
  | 10 => "cross contract storage reference banned"
  | 11 => "tuple target assignment banned"
  | 12 => "module exposes no public entry point"
  | 13 => "illegal builtin or runtime name used"
  | 14 => "argument name shadows storage declaration"
  | 15 => "invalid annotation type"
  | 16 => "missing type annotation"
  | 17 => "return type annotations are not permitted on exported functions"
  | _ => "closures are banned"

/-- Modelled from the spec: a concrete `Consts` instantiation (see
`defaultTriggers`). -/
def defaultConsts : Consts :=
  { VIOLATION_TRIGGERS := defaultTriggers
    ALLOWED_AST_TYPES := ["Module", "FunctionDef", "Name", "Call", "Assign", "Expr", "Constant"]
    ILLEGAL_AST_TYPES := []
    ILLEGAL_BUILTINS := ["eval", "exec", "float", "open", "globals"]
    ALLOWED_ANNOTATION_TYPES :=
      ["dict", "list", "str", "int", "float", "bool", "datetime.timedelta",
       "datetime.datetime", "Any"]
    ORM_CLASS_NAMES := ["Variable", "Hash", "ForeignVariable", "ForeignHash"]
    VALID_DECORATORS := ["export", "construct"]
    VALID_DECORATORS_REPR := "['export', 'construct']"
    EXPORT_DECORATOR_STRING := "export"
    INIT_DECORATOR_STRING := "construct"
    builtins := ["sys", "os", "math", "json"] }

/-!
### Definitions used by the verification statements
-/

/-- Decider for "`m` is a missing-export violation of `defaultConsts`":
`"Line "` followed by a nonempty digit run, then `": "` and exactly the
trigger-12 text. -/
def isT12b (m : String) : Bool :=
  (m.data.take 5 == "Line ".data) &&
  !((m.data.drop 5).takeWhile Char.isDigit).isEmpty &&
  ((m.data.drop 5).dropWhile Char.isDigit == (": " ++ defaultTriggers 12).data)

/-- The trigger indices that the traversal phase (`visit` and the helpers
it calls) can emit in `"Line {}: "`-shaped messages. -/
def visitColonIdxs : List Nat := [0, 2, 3, 5, 6, 7, 8, 9, 10, 11, 13, 18]

/-- Shape of every message the traversal phase appends: either
`"Line N: " ++ trigger ++ extra` for a trigger index in `visitColonIdxs`,
or the `"Line N : "` spaced form of `not_system_variable`. -/
def VisitMsg (C : Consts) (m : String) : Prop :=
  (∃ i, i ∈ visitColonIdxs ∧
    ∃ ln extra, m = "Line " ++ natRepr ln ++ ": " ++ C.VIOLATION_TRIGGERS i ++ extra) ∨
  (∃ ln rest, m = "Line " ++ natRepr ln ++ " : " ++ rest)

/-- The state evolution contract of one traversal step: violations are
only appended and have traversal shapes, `_is_success` can only flip to
`False` alongside an append, and `visited_args` is only appended. -/
def Frame (C : Consts) (s s' : St) : Prop :=
  (∃ l, s'._violations = s._violations ++ l ∧ (∀ m ∈ l, VisitMsg C m) ∧
    (s'._is_success = false → s._is_success = false ∨ l ≠ [])) ∧
  (∃ va, s'.visited_args = s.visited_args ++ va)

/-- The weakening of `Frame` that the fail-closed argument needs:
violations only appended, and `_is_success` flips to `False` only
alongside an append. -/
def PFrame (s s' : St) : Prop :=
  ∃ l, s'._violations = s._violations ++ l ∧
    (s'._is_success = false → s._is_success = false ∨ l ≠ [])

/-- The messages the collision loop of `_final_checks` appends: one per
recorded `(argument, line)` pair whose name is a declared storage name. -/
def collisionMsgs (C : Consts) (orm : List String) (pairs : List (String × Nat)) :
    List String :=
  (pairs.filter (fun p => decide (p.1 ∈ orm))).map
    (fun p => "Line " ++ natRepr p.2 ++ ": " ++ C.VIOLATION_TRIGGERS 14)

/-- The messages `annotation_types` appends for one recorded entry. -/
def annotationMsg (C : Consts) (p : Option String × Nat) : List String :=
  match p.1 with
  | none => ["Line " ++ natRepr p.2 ++ " : " ++ C.VIOLATION_TRIGGERS 16]
  | some ty =>
    if ty ∈ C.ALLOWED_ANNOTATION_TYPES then []
    else ["Line " ++ natRepr p.2 ++ " : " ++ C.VIOLATION_TRIGGERS 15 ++ " : " ++ ty]

/-- All messages of the annotation-validation loop, in loop order. -/
def annotationMsgs (C : Consts) (entries : List (Option String × Nat)) : List String :=
  entries.flatMap (annotationMsg C)

/-- The messages `check_return_types` appends for one recorded entry. -/
def returnMsg (C : Consts) (p : Option String × Nat) : List String :=
  match p.1 with
  | some ty => ["Line " ++ natRepr p.2 ++ " : " ++ C.VIOLATION_TRIGGERS 17 ++ " : " ++ ty]
  | none => []

/-- All messages of the return-annotation loop, in loop order. -/
def returnMsgs (C : Consts) (entries : List (Option String × Nat)) : List String :=
  entries.flatMap (returnMsg C)

/-- The message of the export-presence check, when it fires. -/
def exportMsgs (C : Consts) (tree : Node) (exportFlag : Bool) : List String :=
  match firstFunctionLine tree with
  | some ln =>
    if exportFlag = false then ["Line " ++ natRepr (ln - 1) ++ ": " ++ C.VIOLATION_TRIGGERS 12]
    else []
  | none => []

/-- All fields equal except possibly `_functions` (what the collect walk
may change). -/
def EqExceptFunctions (s s' : St) : Prop :=
  s'._violations = s._violations ∧ s'._is_one_export = s._is_one_export ∧
  s'._is_success = s._is_success ∧ s'._constructor_visited = s._constructor_visited ∧
  s'.orm_names = s.orm_names ∧ s'.visited_args = s.visited_args ∧
  s'.return_ann = s.return_ann ∧ s'.arg_types = s.arg_types

/-- All fields equal except possibly `_violations` and `_is_success`
(what the finalization loops may change). -/
def EqExceptViol (s s' : St) : Prop :=
  s'._functions = s._functions ∧ s'._is_one_export = s._is_one_export ∧
  s'._constructor_visited = s._constructor_visited ∧ s'.orm_names = s.orm_names ∧
  s'.visited_args = s.visited_args ∧ s'.return_ann = s.return_ann ∧
  s'.arg_types = s.arg_types

/-- An `ast.Pass` statement. -/
def passNode (ln : Nat) : Node := .OtherNode "Pass" (some ln) []

/-- `@export def f(x: int) -> int: pass` — an exported function with a
return annotation (and one annotated argument). -/
def exportReturnMod : Node := .Module [.FunctionDef 1 "f"
  (.ArgumentsNode [.ArgNode 1 "x" (some (.NameNode 1 "int"))])
  [passNode 1] [.NameNode 1 "export"] (some (.NameNode 1 "int"))]

/-- `@export def f(x, y): pass` — an exported function with two
unannotated arguments. -/
def twoUnannotatedMod : Node := .Module [.FunctionDef 1 "f"
  (.ArgumentsNode [.ArgNode 1 "x" none, .ArgNode 1 "y" none])
  [passNode 1] [.NameNode 1 "export"] none]

/-- A module with one exported function at line 1 whose arguments all
lack annotations. -/
def unannotatedFnMod (names : List String) : Node := .Module [.FunctionDef 1 "f"
  (.ArgumentsNode (names.map (fun nm => .ArgNode 1 nm none)))
  [passNode 1] [.NameNode 1 "export"] none]

/-- Number of unannotated arguments of the module's single function. -/
def countUnannotated : Node → Nat
  | .Module [.FunctionDef _ _ (.ArgumentsNode l) _ _ _] =>
    (l.filter (fun a => match a with | .ArgNode _ _ none => true | _ => false)).length
  | _ => 0

/-- `def f(): pass` then `x = g()()` — a module with an (unexported)
function followed by an assignment whose call target is itself a call,
which makes the traversal fault. -/
def faultingMod : Node := .Module
  [.FunctionDef 1 "f" (.ArgumentsNode []) [passNode 1] [] none,
   .Assign 2 [.NameNode 2 "x"] (.CallNode 2 (.CallNode 2 (.NameNode 2 "g") [] []) [] [])]

/-- `def f(): pass` at line 2 with no decorator — a module with a
function and no export marker. -/
def noExportMod : Node := .Module [.FunctionDef 2 "f" (.ArgumentsNode []) [passNode 2] [] none]

/-- `balances = Hash()` then `def f(balances): pass` — a storage name
colliding with the argument of a function that bears no decorator. -/
def collisionMod : Node := .Module
  [.Assign 1 [.NameNode 1 "balances"] (.CallNode 1 (.NameNode 1 "Hash") [] []),
   .FunctionDef 2 "f" (.ArgumentsNode [.ArgNode 2 "balances" none]) [passNode 2] [] none]

/-- The combined state effect of one iteration of the
`for a in arguments.args` loop on an unannotated argument of an exported
function: record the argument name into `visited_args` and the absent
annotation into `arg_types`. -/
def unannStep (ln : Nat) (acc : St) (nm : String) : St :=
  { acc with visited_args := setAdd acc.visited_args (nm, ln),
             arg_types := setAdd acc.arg_types (none, ln) }

/-!
## Theorems

### Digit and message-shape infrastructure
-/

theorem digitChar_isDigit {d : Nat} (h : d < 10) : (digitChar d).isDigit = true := by
  interval_cases d <;> decide

theorem natDigitsF_spec :
    ∀ (fuel n : Nat), n < fuel →
      natDigitsF fuel n ≠ [] ∧ ∀ c ∈ natDigitsF fuel n, c.isDigit = true := by
  intro fuel
  induction fuel with
  | zero => intro n h; omega
  | succ f ih =>
    intro n h
    by_cases h10 : n < 10
    · refine ⟨by simp [natDigitsF, h10], ?_⟩
      intro c hc
      simp [natDigitsF, h10] at hc
      subst hc
      exact digitChar_isDigit h10
    · have hdiv : n / 10 < f := by
        have := Nat.div_lt_self (show 0 < n by omega) (show (1 : Nat) < 10 by omega)
        omega
      obtain ⟨h1, h2⟩ := ih (n / 10) hdiv
      refine ⟨by simp [natDigitsF, h10], ?_⟩
      intro c hc
      simp [natDigitsF, h10] at hc
      rcases hc with hc | hc
      · exact h2 c hc
      · subst hc
        exact digitChar_isDigit (Nat.mod_lt _ (by omega))

theorem natDigits_ne_nil (n : Nat) : natDigits n ≠ [] :=
  (natDigitsF_spec (n + 1) n (by omega)).1

theorem natDigits_isDigit (n : Nat) : ∀ c ∈ natDigits n, c.isDigit = true :=
  (natDigitsF_spec (n + 1) n (by omega)).2

theorem takeWhile_digits {ds r : List Char}
    (hds : ∀ c ∈ ds, Char.isDigit c = true)
    (hr : ∀ c, r.head? = some c → Char.isDigit c = false) :
    (ds ++ r).takeWhile Char.isDigit = ds ∧ (ds ++ r).dropWhile Char.isDigit = r := by
  induction ds with
  | nil =>
    simp only [List.nil_append]
    cases r with
    | nil => simp
    | cons c r' =>
      have hc := hr c rfl
      constructor
      · simp [List.takeWhile_cons, hc]
      · simp [List.dropWhile_cons, hc]
  | cons d ds' ih =>
    have hd := hds d (by simp)
    have hds' : ∀ c ∈ ds', Char.isDigit c = true := fun c hc => hds c (by simp [hc])
    obtain ⟨ih1, ih2⟩ := ih hds'
    constructor
    · simp [List.takeWhile_cons, hd, ih1]
    · simp [List.dropWhile_cons, hd, ih2]

theorem isT12b_decomp (m : String) (ds r : List Char)
    (hm : m.data = "Line ".data ++ (ds ++ r))
    (hds1 : ds ≠ []) (hds2 : ∀ c ∈ ds, c.isDigit = true)
    (hr : ∀ c, r.head? = some c → Char.isDigit c = false) :
    isT12b m = (r == (": " ++ defaultTriggers 12).data) := by
  obtain ⟨htw, hdw⟩ := takeWhile_digits hds2 hr
  have hdrop : ("Line ".data ++ (ds ++ r)).drop 5 = ds ++ r := by
    have h := List.drop_left "Line ".data (ds ++ r)
    simpa using h
  have hempty : ds.isEmpty = false := by
    cases ds with
    | nil => exact absurd rfl hds1
    | cons a t => rfl
  unfold isT12b
  rw [hm, List.take_append_of_le_length (by simp), hdrop, htw, hdw]
  simp [hempty]

theorem colonMsg_data (ln : Nat) (t extra : String) :
    ("Line " ++ natRepr ln ++ ": " ++ t ++ extra).data
      = "Line ".data ++ (natDigits ln ++ (':' :: ' ' :: (t.data ++ extra.data))) := by
  simp only [String.data_append, natRepr, List.append_assoc]
  rfl

theorem spaceMsg_data (ln : Nat) (rest : String) :
    ("Line " ++ natRepr ln ++ " : " ++ rest).data
      = "Line ".data ++ (natDigits ln ++ (' ' :: ':' :: ' ' :: rest.data)) := by
  simp only [String.data_append, natRepr, List.append_assoc]
  rfl

theorem isT12b_colonForm (t extra : String) (ln : Nat)
    (ht : t.data ≠ []) (hm : t.data.head? ≠ some 'm') :
    isT12b ("Line " ++ natRepr ln ++ ": " ++ t ++ extra) = false := by
  rw [isT12b_decomp _ (natDigits ln) (':' :: ' ' :: (t.data ++ extra.data))
    (colonMsg_data ln t extra) (natDigits_ne_nil ln) (natDigits_isDigit ln)
    (by intro c' hc'; cases hc'; decide)]
  have hne : (':' :: ' ' :: (t.data ++ extra.data)) ≠ (": " ++ defaultTriggers 12).data := by
    intro heq
    have h2 : t.data ++ extra.data = (defaultTriggers 12).data := by
      have h0 : (": " ++ defaultTriggers 12).data = ':' :: ' ' :: (defaultTriggers 12).data := rfl
      rw [h0] at heq
      exact (List.cons.injEq _ _ _ _).mp ((List.cons.injEq _ _ _ _).mp heq).2 |>.2
    cases hd : t.data with
    | nil => exact ht hd
    | cons c r =>
      have hhead : (t.data ++ extra.data).head? = some c := by simp [hd]
      rw [h2] at hhead
      have h12 : (defaultTriggers 12).data.head? = some 'm' := by decide
      rw [h12] at hhead
      have : c = 'm' := by simpa using hhead.symm
      rw [hd, this] at hm
      exact hm rfl
  exact beq_eq_false_iff_ne.mpr hne

theorem isT12b_spaceForm (ln : Nat) (rest : String) :
    isT12b ("Line " ++ natRepr ln ++ " : " ++ rest) = false := by
  rw [isT12b_decomp _ (natDigits ln) (' ' :: ':' :: ' ' :: rest.data)
    (spaceMsg_data ln rest) (natDigits_ne_nil ln) (natDigits_isDigit ln)
    (by intro c' hc'; cases hc'; decide)]
  have hne : (' ' :: ':' :: ' ' :: rest.data) ≠ (": " ++ defaultTriggers 12).data := by
    intro heq
    have : (": " ++ defaultTriggers 12).data = ':' :: ' ' :: (defaultTriggers 12).data := rfl
    rw [this] at heq
    exact absurd ((List.cons.injEq _ _ _ _).mp heq).1 (by decide)
  exact beq_eq_false_iff_ne.mpr hne

theorem isT12b_t12 (ln : Nat) :
    isT12b ("Line " ++ natRepr ln ++ ": " ++ defaultTriggers 12) = true := by
  have hdata : ("Line " ++ natRepr ln ++ ": " ++ defaultTriggers 12).data
      = "Line ".data ++ (natDigits ln ++ (':' :: ' ' :: (defaultTriggers 12).data)) := by
    simp only [String.data_append, natRepr, List.append_assoc]
    rfl
  rw [isT12b_decomp _ (natDigits ln) (':' :: ' ' :: (defaultTriggers 12).data)
    hdata (natDigits_ne_nil ln) (natDigits_isDigit ln)
    (by intro c' hc'; cases hc'; decide)]
  have h0 : (": " ++ defaultTriggers 12).data = ':' :: ' ' :: (defaultTriggers 12).data := rfl
  rw [h0]
  exact beq_self_eq_true _

theorem isT12b_unexpected (e : String) :
    isT12b ("Unexpected error during linting: " ++ e) = false := by
  unfold isT12b
  have hdata : ("Unexpected error during linting: " ++ e).data
      = "Unexpected error during linting: ".data ++ e.data := String.data_append _ _
  rw [hdata, List.take_append_of_le_length (by simp)]
  have h0 : (List.take 5 "Unexpected error during linting: ".data == "Line ".data) = false := by
    decide
  rw [h0]
  simp

theorem visitMsg_not_t12 {m : String} (h : VisitMsg defaultConsts m) :
    isT12b m = false := by
  rcases h with ⟨i, hi, ln, extra, rfl⟩ | ⟨ln, rest, rfl⟩
  · simp only [visitColonIdxs, List.mem_cons, List.not_mem_nil, or_false] at hi
    rcases hi with rfl | rfl | rfl | rfl | rfl | rfl | rfl | rfl | rfl | rfl | rfl | rfl <;>
      exact isT12b_colonForm _ _ _ (by decide) (by decide)
  · exact isT12b_spaceForm ln rest

/-! ### Frame machinery for the traversal invariants -/

theorem bindE_ok {α β : Type} {x : Except String α} {f : α → Except String β} {b : β} :
    x >>= f = .ok b ↔ ∃ a, x = .ok a ∧ f a = .ok b := by
  cases x with
  | error e => simp [Bind.bind, Except.bind]
  | ok a => simp [Bind.bind, Except.bind]

theorem frame_refl (C : Consts) (s : St) : Frame C s s :=
  ⟨⟨[], by simp, by simp, fun h => Or.inl h⟩, ⟨[], by simp⟩⟩

theorem frame_trans {C : Consts} {s1 s2 s3 : St}
    (h12 : Frame C s1 s2) (h23 : Frame C s2 s3) : Frame C s1 s3 := by
  obtain ⟨⟨l1, hv1, hm1, hs1⟩, ⟨va1, hva1⟩⟩ := h12
  obtain ⟨⟨l2, hv2, hm2, hs2⟩, ⟨va2, hva2⟩⟩ := h23
  refine ⟨⟨l1 ++ l2, ?_, ?_, ?_⟩, ⟨va1 ++ va2, ?_⟩⟩
  · rw [hv2, hv1, List.append_assoc]
  · intro m hm
    rcases List.mem_append.mp hm with h | h
    · exact hm1 m h
    · exact hm2 m h
  · intro h3
    rcases hs2 h3 with h2 | h2
    · rcases hs1 h2 with h | h
      · exact Or.inl h
      · exact Or.inr (fun hx => h (List.append_eq_nil.mp hx).1)
    · exact Or.inr (fun hx => h2 (List.append_eq_nil.mp hx).2)
  · rw [hva2, hva1, List.append_assoc]

theorem frame_addViolation {C : Consts} {m : String} (h : VisitMsg C m) (s : St) :
    Frame C s (addViolation m s) :=
  ⟨⟨[m], rfl, by simpa using h, fun _ => Or.inr (by simp)⟩, ⟨[], by simp [addViolation]⟩⟩

theorem frame_same {C : Consts} {s s' : St}
    (hv : s'._violations = s._violations) (hs : s'._is_success = s._is_success)
    (hva : s'.visited_args = s.visited_args) : Frame C s s' :=
  ⟨⟨[], by simp [hv], by simp, fun h => Or.inl (hs ▸ h)⟩, ⟨[], by simp [hva]⟩⟩

theorem visitMsg_colon {C : Consts} {i : Nat} (hi : i ∈ visitColonIdxs)
    (ln : Nat) (extra : String) :
    VisitMsg C ("Line " ++ natRepr ln ++ ": " ++ C.VIOLATION_TRIGGERS i ++ extra) :=
  Or.inl ⟨i, hi, ln, extra, rfl⟩

theorem str_append_empty (s : String) : s ++ "" = s := by
  apply String.ext
  simp [String.data_append]

theorem visitMsg_colon0 {C : Consts} {i : Nat} (hi : i ∈ visitColonIdxs) (ln : Nat) :
    VisitMsg C ("Line " ++ natRepr ln ++ ": " ++ C.VIOLATION_TRIGGERS i) :=
  Or.inl ⟨i, hi, ln, "", (str_append_empty _).symm⟩

theorem visitMsg_space {C : Consts} (ln : Nat) (rest : String) :
    VisitMsg C ("Line " ++ natRepr ln ++ " : " ++ rest) :=
  Or.inr ⟨ln, rest, rfl⟩

theorem str_append_assoc (a b c : String) : a ++ b ++ c = a ++ (b ++ c) := by
  apply String.ext
  simp [String.data_append]

theorem visitMsg_msg13 (C : Consts) (ln : Nat) : VisitMsg C (msg13 C ln) :=
  visitMsg_colon0 (by decide) ln

theorem frame_ite {C : Consts} {m : String} (h : VisitMsg C m) (cond : Prop)
    [Decidable cond] (s : St) :
    Frame C s (if cond then addViolation m s else s) := by
  split
  · exact frame_addViolation h s
  · exact frame_refl C s

theorem frame_ite2 {C : Consts} {m1 m2 : String} (h1 : VisitMsg C m1) (h2 : VisitMsg C m2)
    (c1 c2 : Prop) [Decidable c1] [Decidable c2] (s : St) :
    Frame C s (if c2 then addViolation m2 (if c1 then addViolation m1 s else s)
               else (if c1 then addViolation m1 s else s)) :=
  frame_trans (frame_ite h1 c1 s) (frame_ite h2 c2 _)

theorem gvHeader_frame {C : Consts} {n : Node} {s s' : St}
    (h : gvHeader C n s = .ok s') : Frame C s s' := by
  unfold gvHeader at h
  by_cases hI : kindName n ∈ C.ILLEGAL_AST_TYPES
  · rw [if_pos hI] at h
    cases hL : linenoOf n with
    | none => rw [hL] at h; cases h
    | some ln =>
      rw [hL] at h
      simp only [Except.ok.injEq] at h
      exact h ▸ frame_addViolation (visitMsg_colon0 (by decide) ln) s
  · rw [if_neg hI] at h
    simp only [Except.ok.injEq] at h
    exact h ▸ frame_refl C s

theorem not_system_variable_frame (C : Consts) (v : String) (ln : Nat) (s : St) :
    Frame C s (not_system_variable C v ln s) := by
  unfold not_system_variable
  split
  · refine frame_addViolation (Or.inr ⟨ln, C.VIOLATION_TRIGGERS 1 ++ " : " ++ v, ?_⟩) s
    simp only [str_append_assoc]
  · exact frame_refl C s

theorem no_nested_imports_frame (C : Consts) (ln : Nat) (body : List Node) (s : St) :
    Frame C s (no_nested_imports C ln body s) := by
  induction body generalizing s with
  | nil => exact frame_refl C s
  | cons x rest ih =>
    have hstep : no_nested_imports C ln (x :: rest) s
        = no_nested_imports C ln rest
          (match x with
           | .ImportFrom _ _ =>
             addViolation ("Line " ++ natRepr ln ++ ": " ++ C.VIOLATION_TRIGGERS 2) s
           | .ImportNode _ _ =>
             addViolation ("Line " ++ natRepr ln ++ ": " ++ C.VIOLATION_TRIGGERS 2) s
           | _ => s) := by
      simp [no_nested_imports]
    rw [hstep]
    refine frame_trans ?_ (ih _)
    cases x <;> first
      | exact frame_refl C s
      | exact frame_addViolation (visitMsg_colon0 (by decide) ln) s

theorem closuresCheck_frame (C : Consts) (ln : Nat) (body : List Node) (s : St) :
    Frame C s (closuresCheck C ln body s) := by
  induction body generalizing s with
  | nil => exact frame_refl C s
  | cons x rest ih =>
    have hstep : closuresCheck C ln (x :: rest) s
        = closuresCheck C ln rest
          (match x with
           | .FunctionDef _ _ _ _ _ _ =>
             addViolation ("Line " ++ natRepr ln ++ ": " ++ C.VIOLATION_TRIGGERS 18) s
           | _ => s) := by
      simp [closuresCheck]
    rw [hstep]
    refine frame_trans ?_ (ih _)
    cases x <;> first
      | exact frame_refl C s
      | exact frame_addViolation (visitMsg_colon0 (by decide) ln) s

theorem importBuiltinsCheck_frame (C : Consts) (ln : Nat)
    (names : List (String × Option String)) (s : St) :
    Frame C s (importBuiltinsCheck C ln names s) := by
  induction names generalizing s with
  | nil => exact frame_refl C s
  | cons x rest ih =>
    have hstep : importBuiltinsCheck C ln (x :: rest) s
        = importBuiltinsCheck C ln rest
          (if x.1 ∈ C.builtins then addViolation (msg13 C ln) s else s) := by
      simp [importBuiltinsCheck]
    rw [hstep]
    exact frame_trans (frame_ite (visitMsg_msg13 C ln) _ s) (ih _)

theorem setAdd_append {α : Type} [DecidableEq α] (l : List α) (x : α) :
    ∃ t, setAdd l x = l ++ t := by
  unfold setAdd
  split
  · exact ⟨[], by simp⟩
  · exact ⟨[x], rfl⟩

theorem decoratorStep_frame (C : Consts) (ln : Nat) (acc : St × Bool) (d : Node) :
    Frame C acc.1 (decoratorStep C ln acc d).1 := by
  rcases hdn : (match d with
    | .NameNode _ did => some did
    | .CallNode _ (.NameNode _ fid) _ _ => some fid
    | _ => none : Option String) with _ | dn
  · have : decoratorStep C ln acc d
        = (addViolation ("Line " ++ natRepr ln ++ ": " ++ C.VIOLATION_TRIGGERS 7) acc.1,
           acc.2) := by
      unfold decoratorStep
      rw [hdn]
    rw [this]
    exact frame_addViolation (visitMsg_colon0 (by decide) ln) acc.1
  · have hred : decoratorStep C ln acc d
        = (let s :=
             if dn ∉ C.VALID_DECORATORS then
               addViolation ("Line " ++ natRepr ln ++ ": " ++ C.VIOLATION_TRIGGERS 7 ++
                 ": Invalid decorator '" ++ dn ++ "'. Valid list: " ++
                 C.VALID_DECORATORS_REPR) acc.1
             else acc.1
           let acc2 : St × Bool :=
             if dn = C.EXPORT_DECORATOR_STRING then ({ s with _is_one_export := true }, true)
             else (s, acc.2)
           let s := acc2.1
           let s :=
             if dn = C.INIT_DECORATOR_STRING then
               let s :=
                 if s._constructor_visited then
                   addViolation ("Line " ++ natRepr ln ++ ": " ++ C.VIOLATION_TRIGGERS 8) s
                 else s
               { s with _constructor_visited := true }
             else s
           (s, acc2.2)) := by
      unfold decoratorStep
      rw [hdn]
    rw [hred]
    simp only
    set sA : St :=
      if dn ∉ C.VALID_DECORATORS then
        addViolation ("Line " ++ natRepr ln ++ ": " ++ C.VIOLATION_TRIGGERS 7 ++
          ": Invalid decorator '" ++ dn ++ "'. Valid list: " ++ C.VALID_DECORATORS_REPR) acc.1
      else acc.1 with hsA
    have f1 : Frame C acc.1 sA := by
      rw [hsA]
      split
      · have h0 : "Line " ++ natRepr ln ++ ": " ++ C.VIOLATION_TRIGGERS 7 ++
            ": Invalid decorator '" ++ dn ++ "'. Valid list: " ++ C.VALID_DECORATORS_REPR
            = "Line " ++ natRepr ln ++ ": " ++ C.VIOLATION_TRIGGERS 7 ++
              (": Invalid decorator '" ++ dn ++ "'. Valid list: " ++ C.VALID_DECORATORS_REPR) := by
          simp only [str_append_assoc]
        rw [h0]
        exact frame_addViolation (visitMsg_colon (by decide) ln _) acc.1
      · exact frame_refl C acc.1
    set accB : St × Bool :=
      if dn = C.EXPORT_DECORATOR_STRING then ({ sA with _is_one_export := true }, true)
      else (sA, acc.2) with hsB
    have f2 : Frame C sA accB.1 := by
      rw [hsB]
      split
      · exact frame_same rfl rfl rfl
      · exact frame_refl C _
    have f3 : Frame C accB.1
        (if dn = C.INIT_DECORATOR_STRING then
          { (if accB.1._constructor_visited then
              addViolation ("Line " ++ natRepr ln ++ ": " ++ C.VIOLATION_TRIGGERS 8) accB.1
            else accB.1) with _constructor_visited := true }
         else accB.1) := by
      split
      · refine frame_trans
          (frame_ite (@visitMsg_colon0 C 8 (by decide) ln)
            (accB.1._constructor_visited = true) accB.1) ?_
        exact frame_same rfl rfl rfl
      · exact frame_refl C _
    exact frame_trans f1 (frame_trans f2 f3)

theorem decoratorLoop_frame (C : Consts) (ln : Nat) (dl : List Node) :
    ∀ (acc : St × Bool), Frame C acc.1 (dl.foldl (decoratorStep C ln) acc).1 := by
  induction dl with
  | nil => intro acc; exact frame_refl C acc.1
  | cons d rest ih =>
    intro acc
    rw [List.foldl_cons]
    exact frame_trans (decoratorStep_frame C ln acc d) (ih _)

theorem visitOneArg_frame {ln : Nat} {ed : Bool} {s s' : St} {a : Node} {C : Consts}
    (h : visitOneArg ln ed s a = .ok s') : Frame C s s' := by
  unfold visitOneArg at h
  cases a with
  | ArgNode aln argName ann =>
    simp only at h
    obtain ⟨t, ht⟩ := setAdd_append s.visited_args (argName, ln)
    by_cases hed : ed = true
    · rw [if_pos hed] at h
      cases ann with
      | none =>
        simp only [Except.ok.injEq] at h
        subst h
        exact ⟨⟨[], by simp, by simp, fun hf => Or.inl hf⟩, ⟨t, by simp [ht]⟩⟩
      | some annN =>
        cases annN with
        | NameNode a2 annId =>
          simp only [Except.ok.injEq] at h
          subst h
          exact ⟨⟨[], by simp, by simp, fun hf => Or.inl hf⟩, ⟨t, by simp [ht]⟩⟩
        | AttributeNode a2 v attr =>
          cases v with
          | NameNode a3 vid =>
            simp only [Except.ok.injEq] at h
            subst h
            exact ⟨⟨[], by simp, by simp, fun hf => Or.inl hf⟩, ⟨t, by simp [ht]⟩⟩
          | _ => simp at h
        | _ => simp at h
    · rw [if_neg hed] at h
      simp only [Except.ok.injEq] at h
      subst h
      exact ⟨⟨[], by simp, by simp, fun hf => Or.inl hf⟩, ⟨t, by simp [ht]⟩⟩
  | _ => simp at h

theorem argsFold_frame {ln : Nat} {ed : Bool} {C : Consts} :
    ∀ (l : List Node) (s s' : St),
      List.foldlM (visitOneArg ln ed) s l = .ok s' → Frame C s s' := by
  intro l
  induction l with
  | nil =>
    intro s s' h
    simp [List.foldlM_nil, pure, Except.pure] at h
    exact h ▸ frame_refl C s
  | cons a rest ih =>
    intro s s' h
    rw [List.foldlM_cons, bindE_ok] at h
    obtain ⟨s1, h1, h2⟩ := h
    exact frame_trans (visitOneArg_frame h1) (ih s1 s' h2)

theorem staleReturnsBlock_frame {ln : Nat} {argList : List Node} {s s' : St} {C : Consts}
    (h : staleReturnsBlock ln argList s = .ok s') : Frame C s s' := by
  unfold staleReturnsBlock at h
  cases hl : argList.getLast? with
  | none => rw [hl] at h; cases h
  | some a =>
    rw [hl] at h
    cases a with
    | ArgNode aln nm ann =>
      cases ann with
      | none => simp at h
      | some annN =>
        cases annN with
        | NameNode a2 annId =>
          simp only [Except.ok.injEq] at h
          exact h ▸ frame_same rfl rfl rfl
        | AttributeNode a2 v attr =>
          cases v with
          | NameNode a3 vid =>
            simp only [Except.ok.injEq] at h
            exact h ▸ frame_same rfl rfl rfl
          | _ => simp at h
        | _ => simp at h
    | _ => simp at h

theorem assignOrmCheck_frame {C : Consts} {ln : Nat} {targets : List Node}
    {value : Node} {s s' : St}
    (h : assignOrmCheck C ln targets value s = .ok s') : Frame C s s' := by
  cases value with
  | CallNode cl func cargs keywords =>
    cases func with
    | AttributeNode a b c =>
      simp only [assignOrmCheck, Except.ok.injEq] at h
      exact h ▸ frame_refl C s
    | NameNode a fid =>
      simp only [assignOrmCheck] at h
      by_cases hf : fid ∈ C.ORM_CLASS_NAMES
      · rw [if_pos hf] at h
        cases ht : targets.head? with
        | none => rw [ht] at h; cases h
        | some t0 =>
          rw [ht] at h
          set sX : St :=
            if fid = "Variable" ∨ fid = "Hash" then
              if some "contract" ∈ keywords.map Prod.fst ∨ some "name" ∈ keywords.map Prod.fst then
                addViolation ("Line " ++ natRepr ln ++ ": " ++ C.VIOLATION_TRIGGERS 10) s
              else s
            else s with hX
          set sY : St :=
            if targets.any (fun t => kindName t == "Tuple")
                ∨ kindName (Node.CallNode cl (Node.NameNode a fid) cargs keywords) == "Tuple" then
              addViolation ("Line " ++ natRepr ln ++ ": " ++ C.VIOLATION_TRIGGERS 11) sX
            else sX with hY
          have fX : Frame C s sX := by
            rw [hX]
            split
            · exact frame_ite (@visitMsg_colon0 C 10 (by decide) ln) _ s
            · exact frame_refl C s
          have fY : Frame C s sY := by
            rw [hY]
            exact frame_trans fX (frame_ite (@visitMsg_colon0 C 11 (by decide) ln) _ sX)
          cases t0 <;> simp only [Except.ok.injEq] at h <;> subst h <;>
            first
              | exact frame_trans fY (frame_same rfl rfl rfl)
              | exact fY
      · rw [if_neg hf] at h
        simp only [Except.ok.injEq] at h
        exact h ▸ frame_refl C s
    | _ => simp [assignOrmCheck] at h
  | _ =>
    first
      | (simp only [assignOrmCheck, Except.ok.injEq] at h
         exact h ▸ frame_refl C s)

theorem visitMsg_t9 (C : Consts) (lineno len : Nat) :
    VisitMsg C ("Line " ++ natRepr lineno ++ ": " ++ C.VIOLATION_TRIGGERS 9 ++
      ": Detected: " ++ natRepr len ++ " MAX limit: 1") := by
  have h0 : "Line " ++ natRepr lineno ++ ": " ++ C.VIOLATION_TRIGGERS 9 ++
      ": Detected: " ++ natRepr len ++ " MAX limit: 1"
      = "Line " ++ natRepr lineno ++ ": " ++ C.VIOLATION_TRIGGERS 9 ++
        (": Detected: " ++ natRepr len ++ " MAX limit: 1") := by
    simp only [str_append_assoc]
  rw [h0]
  exact visitMsg_colon (by decide) lineno _

theorem decoratorLoopRun_frame (C : Consts) (ln : Nat) (dl : List Node) (s : St) :
    Frame C s (decoratorLoop C ln dl s).1 :=
  decoratorLoop_frame C ln dl (s, false)

/-- The traversal only appends violation strings of traversal shapes,
only flips `_is_success` alongside an append, and only appends to
`visited_args`. -/
theorem visit_frame (C : Consts) :
    ∀ (n : Node) (s s' : St), visit C n s = .ok s' → Frame C s s' := by
  apply visit.induct C
    (fun n s => ∀ s', visit C n s = .ok s' → Frame C s s')
    (fun kws s => ∀ s', visitKwValues C kws s = .ok s' → Frame C s s')
    (fun o s => ∀ s', visitOpt C o s = .ok s' → Frame C s s')
    (fun l s => ∀ s', visitList C l s = .ok s' → Frame C s s')
  -- Module
  · intro body s ih s' h
    simp only [visit] at h
    rw [bindE_ok] at h
    obtain ⟨s1, h1, h2⟩ := h
    exact frame_trans (gvHeader_frame h1) (ih s1 s' h2)
  -- NameNode
  · intro lineno id s s' h
    simp only [visit] at h
    exact frame_trans (not_system_variable_frame C id lineno s)
      (frame_trans (frame_ite (visitMsg_msg13 C lineno) (id = "rt")
          (not_system_variable C id lineno s))
        (frame_trans (frame_ite (visitMsg_msg13 C lineno) _ _) (gvHeader_frame h)))
  -- AttributeNode
  · intro lineno value attr s ih s' h
    simp only [visit] at h
    rw [bindE_ok] at h
    obtain ⟨s1, h1, h2⟩ := h
    exact frame_trans (not_system_variable_frame C attr lineno s)
      (frame_trans (frame_ite (visitMsg_msg13 C lineno) (attr = "rt")
          (not_system_variable C attr lineno s))
        (frame_trans (gvHeader_frame h1) (ih s1 s' h2)))
  -- ImportNode
  · intro lineno names s s' h
    simp only [visit, Except.ok.injEq] at h
    exact h ▸ importBuiltinsCheck_frame C lineno names s
  -- ImportFrom
  · intro lineno names s s' h
    simp only [visit, Except.ok.injEq] at h
    exact h ▸ frame_addViolation (visitMsg_colon0 (by decide) lineno) s
  -- ClassDef
  · intro lineno nm body s ih s' h
    simp only [visit] at h
    rw [bindE_ok] at h
    obtain ⟨s1, h1, h2⟩ := h
    exact frame_trans (frame_addViolation (visitMsg_colon0 (by decide) lineno) s)
      (frame_trans (gvHeader_frame h1) (ih s1 s' h2))
  -- AsyncFunctionDef
  · intro lineno nm args body dec ret s ih1 ih2 ih3 ih4 s' h
    simp only [visit] at h
    rw [bindE_ok] at h
    obtain ⟨s1, h1, h⟩ := h
    rw [bindE_ok] at h
    obtain ⟨s2, h2, h⟩ := h
    rw [bindE_ok] at h
    obtain ⟨s3, h3, h⟩ := h
    rw [bindE_ok] at h
    obtain ⟨s4, h4, h⟩ := h
    exact frame_trans (frame_addViolation (visitMsg_colon0 (by decide) lineno) s)
      (frame_trans (gvHeader_frame h1)
        (frame_trans (ih1 s1 s2 h2)
          (frame_trans (ih2 s2 s3 h3)
            (frame_trans (ih3 s3 s4 h4) (ih4 s4 s' h)))))
  -- Assign
  · intro lineno targets value s ih1 ih2 s' h
    cases value <;>
      (simp only [visit] at h
       rw [bindE_ok] at h
       obtain ⟨s1, h1, h⟩ := h
       rw [bindE_ok] at h
       obtain ⟨s2, h2, h⟩ := h
       rw [bindE_ok] at h
       obtain ⟨s3, h3, h⟩ := h
       refine frame_trans ?_
         (frame_trans (assignOrmCheck_frame h1)
           (frame_trans (gvHeader_frame h2)
             (frame_trans (ih1 s2 s3 h3) (ih2 s3 s' h))))
       first
         | exact frame_ite (visitMsg_msg13 C lineno) _ s
         | exact frame_refl C s)
  -- AugAssign
  · intro lineno target value s ih1 ih2 s' h
    simp only [visit] at h
    rw [bindE_ok] at h
    obtain ⟨s1, h1, h⟩ := h
    rw [bindE_ok] at h
    obtain ⟨s2, h2, h⟩ := h
    exact frame_trans (gvHeader_frame h1)
      (frame_trans (ih1 s1 s2 h2) (ih2 s2 s' h))
  -- CallNode
  · intro lineno func args keywords s ih1 ih2 ih3 s' h
    cases func <;>
      (simp only [visit] at h
       rw [bindE_ok] at h
       obtain ⟨s1, h1, h⟩ := h
       rw [bindE_ok] at h
       obtain ⟨s2, h2, h⟩ := h
       rw [bindE_ok] at h
       obtain ⟨s3, h3, h⟩ := h
       refine frame_trans ?_
         (frame_trans (gvHeader_frame h1)
           (frame_trans (ih1 s1 s2 h2)
             (frame_trans (ih2 s2 s3 h3) (ih3 s3 s' h))))
       first
         | exact frame_ite (visitMsg_msg13 C lineno) _ s
         | exact frame_refl C s)
  -- NumNode
  · intro lineno k s s' h
    simp only [visit] at h
    exact gvHeader_frame h
  -- FunctionDef with ArgumentsNode args
  · intro lineno nm body decorator_list returns s l heq ih1 ih2 ih3 ih4 s' h
    clear heq
    cases returns with
    | some r =>
      simp only [visit] at h
      rw [bindE_ok] at h
      obtain ⟨argList, hA, h⟩ := h
      simp only [Except.ok.injEq] at hA
      subst hA
      rw [bindE_ok] at h
      obtain ⟨s1, h1, h⟩ := h
      have f2 : Frame C s s1 :=
        frame_trans (no_nested_imports_frame C lineno body s)
          (frame_trans (closuresCheck_frame C lineno body _)
            (frame_trans (frame_ite (visitMsg_t9 C lineno decorator_list.length) _ _)
              (frame_trans (decoratorLoopRun_frame C lineno decorator_list _)
                (argsFold_frame l _ s1 h1))))
      split at h <;> split at h <;>
        (rw [bindE_ok] at h
         obtain ⟨s2, h2, h⟩ := h
         rw [bindE_ok] at h
         obtain ⟨s3, h3, h⟩ := h
         rw [bindE_ok] at h
         obtain ⟨s4, h4, h⟩ := h
         rw [bindE_ok] at h
         obtain ⟨s5, h5, h⟩ := h
         rw [bindE_ok] at h
         obtain ⟨s6, h6, h⟩ := h
         refine frame_trans f2 (frame_trans ?_
           (frame_trans (gvHeader_frame h3)
             (frame_trans (ih1 s3 s4 (by simp only [visit]; exact h4))
               (frame_trans (ih2 s4 s5 h5)
                 (frame_trans (ih3 s5 s6 h6) (ih4 s6 s' h))))))
         first
           | exact staleReturnsBlock_frame h2
           | (simp only [Except.ok.injEq] at h2
              exact h2 ▸ frame_refl C s1))
    | none =>
      simp only [visit] at h
      rw [bindE_ok] at h
      obtain ⟨argList, hA, h⟩ := h
      simp only [Except.ok.injEq] at hA
      subst hA
      rw [bindE_ok] at h
      obtain ⟨s1, h1, h⟩ := h
      have f2 : Frame C s s1 :=
        frame_trans (no_nested_imports_frame C lineno body s)
          (frame_trans (closuresCheck_frame C lineno body _)
            (frame_trans (frame_ite (visitMsg_t9 C lineno decorator_list.length) _ _)
              (frame_trans (decoratorLoopRun_frame C lineno decorator_list _)
                (argsFold_frame l _ s1 h1))))
      split at h <;> split at h <;>
        (rw [bindE_ok] at h
         obtain ⟨s2, h2, h⟩ := h
         rw [bindE_ok] at h
         obtain ⟨s3, h3, h⟩ := h
         rw [bindE_ok] at h
         obtain ⟨s4, h4, h⟩ := h
         rw [bindE_ok] at h
         obtain ⟨s5, h5, h⟩ := h
         rw [bindE_ok] at h
         obtain ⟨s6, h6, h⟩ := h
         simp only [Except.ok.injEq] at h2
         refine frame_trans f2 (frame_trans ?_
           (frame_trans (gvHeader_frame h3)
             (frame_trans (ih1 s3 s4 (by simp only [visit]; exact h4))
               (frame_trans (ih2 s4 s5 h5)
                 (frame_trans (ih3 s5 s6 h6) (ih4 s6 s' h))))))
         first
           | exact h2 ▸ frame_same rfl rfl rfl
           | exact h2 ▸ frame_refl C s1)
  -- FunctionDef whose args node is not an ArgumentsNode: the traversal errors
  · intro lineno nm body decorator_list returns s other heq hnot ih1 ih2 ih3 ih4 s' h
    cases other
    case ArgumentsNode l => exact (hnot l rfl rfl (proof_irrel_heq heq rfl)).elim
    all_goals
      simp only [visit] at h
      rw [bindE_ok] at h
      obtain ⟨a2, ha, -⟩ := h
      simp at ha
  -- TupleNode
  · intro lineno elts s ih s' h
    simp only [visit] at h
    rw [bindE_ok] at h
    obtain ⟨s1, h1, h2⟩ := h
    exact frame_trans (gvHeader_frame h1) (ih s1 s' h2)
  -- ArgumentsNode
  · intro args s ih s' h
    simp only [visit] at h
    rw [bindE_ok] at h
    obtain ⟨s1, h1, h2⟩ := h
    exact frame_trans (gvHeader_frame h1) (ih s1 s' h2)
  -- ArgNode
  · intro lineno nm ann s ih s' h
    simp only [visit] at h
    rw [bindE_ok] at h
    obtain ⟨s1, h1, h2⟩ := h
    exact frame_trans (gvHeader_frame h1) (ih s1 s' h2)
  -- ExprStmt
  · intro lineno value s ih s' h
    simp only [visit] at h
    rw [bindE_ok] at h
    obtain ⟨s1, h1, h2⟩ := h
    exact frame_trans (gvHeader_frame h1) (ih s1 s' h2)
  -- OtherNode
  · intro kind lineno children s ih s' h
    simp only [visit] at h
    rw [bindE_ok] at h
    obtain ⟨s1, h1, h2⟩ := h
    exact frame_trans (gvHeader_frame h1) (ih s1 s' h2)
  -- visitList nil
  · intro s s' h
    simp only [visitList, pure, Except.pure, Except.ok.injEq] at h
    exact h ▸ frame_refl C s
  -- visitList cons
  · intro x rest s ih1 ih2 s' h
    simp only [visitList] at h
    rw [bindE_ok] at h
    obtain ⟨s1, h1, h2⟩ := h
    exact frame_trans (ih1 s1 h1) (ih2 s1 s' h2)
  -- visitOpt none
  · intro s s' h
    simp only [visitOpt, pure, Except.pure, Except.ok.injEq] at h
    exact h ▸ frame_refl C s
  -- visitOpt some
  · intro x s ih s' h
    simp only [visitOpt] at h
    exact ih s' h
  -- visitKwValues nil
  · intro s s' h
    simp only [visitKwValues, pure, Except.pure, Except.ok.injEq] at h
    exact h ▸ frame_refl C s
  -- visitKwValues cons
  · intro fst v rest s ih1 ih2 s' h
    simp only [visitKwValues] at h
    rw [bindE_ok] at h
    obtain ⟨s1, h1, h2⟩ := h
    exact frame_trans (ih1 s1 h1) (ih2 s1 s' h2)

/-! ### Collection-phase and finalization-phase characterizations -/

theorem collectAliasStep_proj (s : St) (al : String × Option String) :
    EqExceptFunctions s (collectAliasStep s al) := by
  cases h : al.2 <;> simp [collectAliasStep, h, EqExceptFunctions]

theorem eqExceptFunctions_refl (s : St) : EqExceptFunctions s s := by
  simp [EqExceptFunctions]

theorem eqExceptFunctions_trans {s1 s2 s3 : St}
    (h12 : EqExceptFunctions s1 s2) (h23 : EqExceptFunctions s2 s3) :
    EqExceptFunctions s1 s3 := by
  obtain ⟨a1, a2, a3, a4, a5, a6, a7, a8⟩ := h12
  obtain ⟨b1, b2, b3, b4, b5, b6, b7, b8⟩ := h23
  exact ⟨b1.trans a1, b2.trans a2, b3.trans a3, b4.trans a4, b5.trans a5,
    b6.trans a6, b7.trans a7, b8.trans a8⟩

theorem collectAliasFold_proj (names : List (String × Option String)) :
    ∀ (s : St), EqExceptFunctions s (names.foldl collectAliasStep s) := by
  induction names with
  | nil => intro s; exact eqExceptFunctions_refl s
  | cons al rest ih =>
    intro s
    rw [List.foldl_cons]
    exact eqExceptFunctions_trans (collectAliasStep_proj s al) (ih _)

theorem collectStep_proj (s : St) (node : Node) :
    EqExceptFunctions s (collectStep s node) := by
  cases node <;>
    first
      | exact collectAliasFold_proj _ s
      | simp [collectStep, EqExceptFunctions]

theorem collectFold_proj (nodes : List Node) :
    ∀ (s : St), EqExceptFunctions s (nodes.foldl collectStep s) := by
  induction nodes with
  | nil => intro s; exact eqExceptFunctions_refl s
  | cons x rest ih =>
    intro s
    rw [List.foldl_cons]
    exact eqExceptFunctions_trans (collectStep_proj s x) (ih _)

theorem collect_proj (root : Node) (s : St) :
    EqExceptFunctions s (_collect_function_defs root s) :=
  collectFold_proj (walk root) s

theorem eqExceptViol_refl (s : St) : EqExceptViol s s := by
  simp [EqExceptViol]

theorem eqExceptViol_trans {s1 s2 s3 : St}
    (h12 : EqExceptViol s1 s2) (h23 : EqExceptViol s2 s3) : EqExceptViol s1 s3 := by
  obtain ⟨a1, a2, a3, a4, a5, a6, a7⟩ := h12
  obtain ⟨b1, b2, b3, b4, b5, b6, b7⟩ := h23
  exact ⟨b1.trans a1, b2.trans a2, b3.trans a3, b4.trans a4, b5.trans a5,
    b6.trans a6, b7.trans a7⟩

theorem addViolation_eqExceptViol (m : String) (s : St) :
    EqExceptViol s (addViolation m s) := by
  simp [addViolation, EqExceptViol]

theorem collisionFold_spec (C : Consts) (orm : List String) :
    ∀ (pairs : List (String × Nat)) (acc : St),
      (pairs.foldl (collisionStep C orm) acc)._violations
        = acc._violations ++ collisionMsgs C orm pairs ∧
      (pairs.foldl (collisionStep C orm) acc)._is_success
        = (if collisionMsgs C orm pairs = [] then acc._is_success else false) ∧
      EqExceptViol acc (pairs.foldl (collisionStep C orm) acc) := by
  intro pairs
  induction pairs with
  | nil =>
    intro acc
    simp [collisionMsgs]
    exact eqExceptViol_refl acc
  | cons p rest ih =>
    intro acc
    rw [List.foldl_cons]
    by_cases hm : p.1 ∈ orm
    · have hstep : collisionStep C orm acc p
          = addViolation ("Line " ++ natRepr p.2 ++ ": " ++ C.VIOLATION_TRIGGERS 14) acc := by
        simp [collisionStep, hm]
      have hmsgs : collisionMsgs C orm (p :: rest)
          = ("Line " ++ natRepr p.2 ++ ": " ++ C.VIOLATION_TRIGGERS 14)
            :: collisionMsgs C orm rest := by
        simp [collisionMsgs, hm]
      obtain ⟨ih1, ih2, ih3⟩ := ih (collisionStep C orm acc p)
      refine ⟨?_, ?_, ?_⟩
      · rw [ih1, hstep, hmsgs]
        simp [addViolation]
      · rw [ih2, hstep, hmsgs]
        cases hr : collisionMsgs C orm rest <;> simp [addViolation, hr]
      · exact eqExceptViol_trans (hstep ▸ addViolation_eqExceptViol _ acc) ih3
    · have hstep : collisionStep C orm acc p = acc := by
        simp [collisionStep, hm]
      have hmsgs : collisionMsgs C orm (p :: rest) = collisionMsgs C orm rest := by
        simp [collisionMsgs, hm]
      rw [hstep, hmsgs]
      exact ih acc

theorem annotation_types_spec (C : Consts) (t : Option String) (ln : Nat) (acc : St) :
    (annotation_types C t ln acc)._violations = acc._violations ++ annotationMsg C (t, ln) ∧
    (annotation_types C t ln acc)._is_success
      = (if annotationMsg C (t, ln) = [] then acc._is_success else false) ∧
    EqExceptViol acc (annotation_types C t ln acc) := by
  cases t with
  | none =>
    refine ⟨by simp [annotation_types, annotationMsg, addViolation], ?_,
      addViolation_eqExceptViol _ acc⟩
    simp [annotation_types, annotationMsg, addViolation]
  | some ty =>
    by_cases ha : ty ∈ C.ALLOWED_ANNOTATION_TYPES
    · refine ⟨?_, ?_, ?_⟩ <;> simp [annotation_types, annotationMsg, ha]
      exact eqExceptViol_refl acc
    · refine ⟨?_, ?_, ?_⟩ <;> simp [annotation_types, annotationMsg, ha, addViolation]
      exact addViolation_eqExceptViol _ acc

theorem annotationFold_spec (C : Consts) :
    ∀ (entries : List (Option String × Nat)) (acc : St),
      (entries.foldl (fun a p => annotation_types C p.1 p.2 a) acc)._violations
        = acc._violations ++ annotationMsgs C entries ∧
      (entries.foldl (fun a p => annotation_types C p.1 p.2 a) acc)._is_success
        = (if annotationMsgs C entries = [] then acc._is_success else false) ∧
      EqExceptViol acc (entries.foldl (fun a p => annotation_types C p.1 p.2 a) acc) := by
  intro entries
  induction entries with
  | nil =>
    intro acc
    simp [annotationMsgs]
    exact eqExceptViol_refl acc
  | cons p rest ih =>
    intro acc
    rw [List.foldl_cons]
    obtain ⟨h1, h2, h3⟩ := annotation_types_spec C p.1 p.2 acc
    obtain ⟨ih1, ih2, ih3⟩ := ih (annotation_types C p.1 p.2 acc)
    have hmsgs : annotationMsgs C (p :: rest)
        = annotationMsg C (p.1, p.2) ++ annotationMsgs C rest := by
      simp [annotationMsgs]
    refine ⟨?_, ?_, eqExceptViol_trans h3 ih3⟩
    · rw [ih1, h1, hmsgs, List.append_assoc]
    · rw [ih2, h2, hmsgs]
      cases ha : annotationMsg C (p.1, p.2) <;> cases hr : annotationMsgs C rest <;> simp
  -- the empty/nonempty combinations reduce by simp

theorem check_return_types_spec (C : Consts) (t : Option String) (ln : Nat) (acc : St) :
    (check_return_types C t ln acc)._violations = acc._violations ++ returnMsg C (t, ln) ∧
    (check_return_types C t ln acc)._is_success
      = (if returnMsg C (t, ln) = [] then acc._is_success else false) ∧
    EqExceptViol acc (check_return_types C t ln acc) := by
  cases t with
  | none =>
    refine ⟨by simp [check_return_types, returnMsg], by simp [check_return_types, returnMsg],
      eqExceptViol_refl acc⟩
  | some ty =>
    refine ⟨by simp [check_return_types, returnMsg, addViolation], ?_,
      addViolation_eqExceptViol _ acc⟩
    simp [check_return_types, returnMsg, addViolation]

theorem returnFold_spec (C : Consts) :
    ∀ (entries : List (Option String × Nat)) (acc : St),
      (entries.foldl (fun a p => check_return_types C p.1 p.2 a) acc)._violations
        = acc._violations ++ returnMsgs C entries ∧
      (entries.foldl (fun a p => check_return_types C p.1 p.2 a) acc)._is_success
        = (if returnMsgs C entries = [] then acc._is_success else false) ∧
      EqExceptViol acc (entries.foldl (fun a p => check_return_types C p.1 p.2 a) acc) := by
  intro entries
  induction entries with
  | nil =>
    intro acc
    simp [returnMsgs]
    exact eqExceptViol_refl acc
  | cons p rest ih =>
    intro acc
    rw [List.foldl_cons]
    obtain ⟨h1, h2, h3⟩ := check_return_types_spec C p.1 p.2 acc
    obtain ⟨ih1, ih2, ih3⟩ := ih (check_return_types C p.1 p.2 acc)
    have hmsgs : returnMsgs C (p :: rest) = returnMsg C (p.1, p.2) ++ returnMsgs C rest := by
      simp [returnMsgs]
    refine ⟨?_, ?_, eqExceptViol_trans h3 ih3⟩
    · rw [ih1, h1, hmsgs, List.append_assoc]
    · rw [ih2, h2, hmsgs]
      cases ha : returnMsg C (p.1, p.2) <;> cases hr : returnMsgs C rest <;> simp

theorem exportStep_spec (C : Consts) (tree : Node) (s1 : St) :
    (match firstFunctionLine tree with
     | some ln =>
       if s1._is_one_export = false then
         addViolation ("Line " ++ natRepr (ln - 1) ++ ": " ++ C.VIOLATION_TRIGGERS 12) s1
       else s1
     | none => s1)._violations = s1._violations ++ exportMsgs C tree s1._is_one_export ∧
    (match firstFunctionLine tree with
     | some ln =>
       if s1._is_one_export = false then
         addViolation ("Line " ++ natRepr (ln - 1) ++ ": " ++ C.VIOLATION_TRIGGERS 12) s1
       else s1
     | none => s1)._is_success
      = (if exportMsgs C tree s1._is_one_export = [] then s1._is_success else false) ∧
    EqExceptViol s1
      (match firstFunctionLine tree with
       | some ln =>
         if s1._is_one_export = false then
           addViolation ("Line " ++ natRepr (ln - 1) ++ ": " ++ C.VIOLATION_TRIGGERS 12) s1
         else s1
       | none => s1) := by
  unfold exportMsgs
  cases hf : firstFunctionLine tree with
  | none =>
    exact ⟨by simp, by simp, by simp [EqExceptViol]⟩
  | some ln =>
    by_cases he : s1._is_one_export = false
    · refine ⟨?_, ?_, ?_⟩
      · simp [he, addViolation]
      · simp [he, addViolation]
      · simp only [he, if_pos]
        exact addViolation_eqExceptViol _ s1
    · refine ⟨?_, ?_, ?_⟩
      · simp [he]
      · simp [he]
      · simp only [he, if_neg]
        simp [EqExceptViol]

theorem success_ite_comp (a b : List String) (x : Bool) :
    (if b = [] then (if a = [] then x else false) else false)
      = (if a ++ b = [] then x else false) := by
  by_cases ha : a = [] <;> by_cases hb : b = [] <;> simp [ha, hb]

/-- Full characterization of `_final_checks`: the appended violations are
the collision, export, annotation and return-annotation messages in that
order, success flips exactly when some message was appended, and every
other field is untouched. -/
theorem final_checks_spec (C : Consts) (tree : Node) (s : St) :
    (_final_checks C tree s)._violations
      = s._violations ++ (collisionMsgs C s.orm_names s.visited_args
          ++ (exportMsgs C tree s._is_one_export
            ++ (annotationMsgs C s.arg_types ++ returnMsgs C s.return_ann))) ∧
    (_final_checks C tree s)._is_success
      = (if collisionMsgs C s.orm_names s.visited_args
            ++ (exportMsgs C tree s._is_one_export
              ++ (annotationMsgs C s.arg_types ++ returnMsgs C s.return_ann)) = []
         then s._is_success else false) ∧
    EqExceptViol s (_final_checks C tree s) := by
  unfold _final_checks
  simp only
  obtain ⟨c1, c2, c3⟩ := collisionFold_spec C s.orm_names s.visited_args s
  set s1 := s.visited_args.foldl (collisionStep C s.orm_names) s with hs1
  have hexp1 : s1._is_one_export = s._is_one_export := c3.2.1
  set s2 : St :=
    match firstFunctionLine tree with
    | some ln =>
      if s1._is_one_export = false then
        addViolation ("Line " ++ natRepr (ln - 1) ++ ": " ++ C.VIOLATION_TRIGGERS 12) s1
      else s1
    | none => s1 with hs2
  have e2 : s2._violations = s1._violations ++ exportMsgs C tree s._is_one_export ∧
      s2._is_success
        = (if exportMsgs C tree s._is_one_export = [] then s1._is_success else false) ∧
      EqExceptViol s1 s2 := by
    rw [hs2, ← hexp1]
    exact exportStep_spec C tree s1
  obtain ⟨e2a, e2b, e2c⟩ := e2
  have harg : s2.arg_types = s.arg_types := (e2c.2.2.2.2.2.2).trans c3.2.2.2.2.2.2
  have hret2 : s2.return_ann = s.return_ann := (e2c.2.2.2.2.2.1).trans c3.2.2.2.2.2.1
  obtain ⟨a1, a2, a3⟩ := annotationFold_spec C s2.arg_types s2
  set s3 := s2.arg_types.foldl (fun a p => annotation_types C p.1 p.2 a) s2 with hs3
  have hret3 : s3.return_ann = s.return_ann := (a3.2.2.2.2.2.1).trans hret2
  obtain ⟨r1, r2, r3⟩ := returnFold_spec C s3.return_ann s3
  refine ⟨?_, ?_, ?_⟩
  · rw [r1, a1, e2a, c1, hret3, harg]
    simp [List.append_assoc]
  · rw [r2, a2, e2b, c2, hret3, harg]
    rw [success_ite_comp, success_ite_comp, success_ite_comp]
  · exact eqExceptViol_trans c3 (eqExceptViol_trans e2c (eqExceptViol_trans a3 r3))

/-! ### Claim theorems -/

/-- C1: the Rule Engine's `check` returns normally for every input (it is
a total function of this embedding); whenever it reports anything other
than success the violation list is nonempty (fail closed, never a false
success), and an internal fault raised during traversal or finalization
is captured and returned as the single violation describing the fault. -/
theorem c1_check_fail_closed :
    (∀ (C : Consts) (st : St) (input : Sum ParseFailure Node) (vs : List String),
        check C st input = some vs → vs ≠ []) ∧
    (∀ (C : Consts) (st : St) (tree : Node) (e : String),
        runTraversal C st tree = .error e →
        check C st (.inr tree) = some ["Unexpected error during linting: " ++ e]) := by
  constructor
  · intro C st input vs h
    cases input with
    | inl se =>
      simp only [check, _reset, resetSt, Option.some.injEq] at h
      subst h
      simp
    | inr tree =>
      cases ht : runTraversal C st tree with
      | error e =>
        simp only [check, ht, Option.some.injEq] at h
        subst h
        simp
      | ok sfin =>
        simp only [check, ht] at h
        split at h
        · simp only [Option.some.injEq] at h
          subst h
          -- decompose the traversal
          unfold runTraversal at ht
          rw [bindE_ok] at ht
          obtain ⟨sv, hvisit, hfin⟩ := ht
          simp only [pure, Except.pure, Except.ok.injEq] at hfin
          have hcoll := collect_proj tree (_reset st)
          have hviol0 : (_collect_function_defs tree (_reset st))._violations = [] := by
            rw [hcoll.1]
            rfl
          have hsucc0 : (_collect_function_defs tree (_reset st))._is_success = true := by
            rw [hcoll.2.2.1]
            rfl
          obtain ⟨⟨l, hv, hm, hsucc⟩, -⟩ := visit_frame C _ _ sv hvisit
          obtain ⟨f1, f2, f3⟩ := final_checks_spec C tree sv
          subst hfin
          rename_i hfalse
          rw [f2] at hfalse
          rw [f1, hv, hviol0]
          split at hfalse
          · rcases hsucc hfalse with h0 | h0
            · rw [hsucc0] at h0
              cases h0
            · simp [h0]
          · rename_i hmsgs
            intro hx
            rcases List.append_eq_nil.mp hx with ⟨-, hx2⟩
            exact hmsgs hx2
        · cases h
  · intro C st tree e h
    simp only [check, h]

/-- C1 witness: a concrete failing check (two unannotated exported
arguments) and a concrete internal fault (a call whose callee is itself a
call), both instantiating the fail-closed theorem. -/
theorem c1_check_fail_closed_witness :
    ["Line 1 : missing type annotation"] ≠ [] ∧
    check defaultConsts resetSt (.inr faultingMod) =
      some ["Unexpected error during linting: 'Call' object has no attribute 'id'"] :=
  ⟨c1_check_fail_closed.1 defaultConsts resetSt (.inr twoUnannotatedMod)
      ["Line 1 : missing type annotation"] (by rfl),
   c1_check_fail_closed.2 defaultConsts resetSt faultingMod
      "'Call' object has no attribute 'id'" (by rfl)⟩

/-- C2: the response handed to the caller satisfies
`success == (errors is empty)`: the flag is computed from emptiness of
the merged error list, and the exception path returns one error with
`success = False`, so the equivalence holds for every outcome. -/
theorem c2_success_iff_no_errors (outcome : Except String (List LintError)) :
    (lintEndpointResponse outcome).success = true ↔
      (lintEndpointResponse outcome).errors = [] := by
  cases outcome with
  | ok errors =>
    simp only [lintEndpointResponse]
    cases errors <;> simp
  | error e => simp [lintEndpointResponse]

/-- C9: the Rule Engine's `check` resets the accumulator before doing
anything, so its result does not depend on whatever mutable state a
previous invocation (or anything else) left in the engine instance:
checking the same input twice yields the same ordered violation list. -/
theorem c9_check_state_independent (C : Consts) (input : Sum ParseFailure Node)
    (st st' : St) : check C st input = check C st' input := rfl

theorem dedup_aux :
    ∀ (errors acc : List LintError),
      acc.Pairwise (fun a b => is_duplicate_error b a = false) →
      ∃ extra,
        errors.foldl
          (fun unique_errors error =>
            let error := { error with message := standardize_error_message error.message }
            if unique_errors.any (fun existing => is_duplicate_error error existing) then
              unique_errors
            else unique_errors ++ [error]) acc = acc ++ extra ∧
        extra.Sublist (errors.map
          (fun e => { e with message := standardize_error_message e.message })) ∧
        (acc ++ extra).Pairwise (fun a b => is_duplicate_error b a = false) := by
  intro errors
  induction errors with
  | nil =>
    intro acc hp
    exact ⟨[], by simp, by simp, by simpa using hp⟩
  | cons e rest ih =>
    intro acc hp
    rw [List.foldl_cons]
    by_cases hany : acc.any (fun existing =>
        is_duplicate_error { e with message := standardize_error_message e.message }
          existing) = true
    · have hstep :
          (let error := { e with message := standardize_error_message e.message }
           if acc.any (fun existing => is_duplicate_error error existing) then acc
           else acc ++ [error]) = acc := by
        simp [hany]
      rw [hstep]
      obtain ⟨extra, h1, h2, h3⟩ := ih acc hp
      exact ⟨extra, h1, h2.cons _, h3⟩
    · have hstep :
          (let error := { e with message := standardize_error_message e.message }
           if acc.any (fun existing => is_duplicate_error error existing) then acc
           else acc ++ [error])
            = acc ++ [{ e with message := standardize_error_message e.message }] := by
        simp [hany]
      rw [hstep]
      have hcross : ∀ a ∈ acc,
          is_duplicate_error { e with message := standardize_error_message e.message } a
            = false := by
        intro a ha
        have := List.any_eq_false.mp (by simpa using hany)
        simpa using this a ha
      have hpw' : (acc ++ [{ e with message := standardize_error_message e.message }]).Pairwise
          (fun a b => is_duplicate_error b a = false) := by
        rw [List.pairwise_append]
        refine ⟨hp, by simp, ?_⟩
        intro a ha b hb
        simp only [List.mem_singleton] at hb
        subst hb
        exact hcross a ha
      obtain ⟨extra, h1, h2, h3⟩ := ih _ hpw'
      refine ⟨{ e with message := standardize_error_message e.message } :: extra, ?_, ?_, ?_⟩
      · rw [h1]
        simp
      · simpa using
          h2.cons₂ { e with message := standardize_error_message e.message }
      · simpa using h3

/-- C7: two violations are duplicates exactly when their standardized
messages are equal and the positions are either both absent or both
present with equal line and column; deduplication scans left to right
keeping first occurrences, so the surviving (standardized) violations
appear in input order and no later survivor duplicates an earlier one. -/
theorem c7_duplicate_definition_and_stable_merge :
    (∀ e1 e2 : LintError,
       is_duplicate_error e1 e2 = true ↔
         (standardize_error_message e1.message = standardize_error_message e2.message ∧
          ((e1.position = none ∧ e2.position = none) ∨
           (∃ p1 p2 : Position, e1.position = some p1 ∧ e2.position = some p2 ∧
              p1.line = p2.line ∧ p1.column = p2.column)))) ∧
    (∀ errors : List LintError,
       (deduplicate_errors errors).Sublist
         (errors.map (fun e => { e with message := standardize_error_message e.message })) ∧
       (deduplicate_errors errors).Pairwise
         (fun a b => is_duplicate_error b a = false)) := by
  constructor
  · intro e1 e2
    unfold is_duplicate_error
    by_cases hm : standardize_error_message e1.message = standardize_error_message e2.message
    · cases h1 : e1.position with
      | none =>
        cases h2 : e2.position with
        | none => simp [hm, h1, h2]
        | some p2 => simp [hm, h1, h2]
      | some p1 =>
        cases h2 : e2.position with
        | none => simp [hm, h1, h2]
        | some p2 =>
          simp [hm, h1, h2, Bool.and_eq_true, beq_iff_eq]
    · simp [hm]
  · intro errors
    obtain ⟨extra, h1, h2, h3⟩ := dedup_aux errors [] (by simp)
    have heq : deduplicate_errors errors = extra := by
      unfold deduplicate_errors
      rw [h1]
      simp
    rw [heq]
    exact ⟨h2, by simpa using h3⟩

/-- C8: a Stage-A diagnostic line whose message group contains a
configured whitelist substring is dropped by the parser, and therefore
contributes nothing to the merged result: the merged output with the
line present equals the merged output with it removed. -/
theorem c8_whitelist_suppression
    (pre post : List String) (line : String) (wl : List String)
    (checkResult : Option (List String))
    (h : ∃ ln col msg,
        pyflakesMatch (stripPrefixIf "Pyflakes error: ".data (pyStrip line).data)
          = some (ln, col, msg) ∧
        ∃ p ∈ wl, containsSubstr msg p.data = true) :
    parse_pyflakes_line (pyStrip line) wl = none ∧
    lint_code_merged (pre ++ line :: post) checkResult wl
      = lint_code_merged (pre ++ post) checkResult wl := by
  obtain ⟨ln, col, msg, hmatch, p, hp, hsub⟩ := h
  have hparse : parse_pyflakes_line (pyStrip line) wl = none := by
    have hany : wl.any (fun pattern => containsSubstr msg pattern.data) = true :=
      List.any_eq_true.mpr ⟨p, hp, hsub⟩
    unfold parse_pyflakes_line
    simp [hmatch, hany]
  refine ⟨hparse, ?_⟩
  unfold lint_code_merged
  congr 1
  unfold runPyflakesLines
  rw [List.foldl_append, List.foldl_append, List.foldl_cons]
  congr 1
  by_cases he : (pyStrip line).data.isEmpty
  · simp [he]
  · simp [he, hparse]

/-- C8 witness: with whitelist `["export"]`, the diagnostic
`<string>:1:1: undefined name 'export'` is suppressed and leaves the
merged result unchanged. -/
theorem c8_whitelist_suppression_witness :
    parse_pyflakes_line (pyStrip "<string>:1:1: undefined name 'export'") ["export"] = none ∧
    lint_code_merged ([] ++ "<string>:1:1: undefined name 'export'" :: []) none ["export"]
      = lint_code_merged ([] ++ []) none ["export"] :=
  c8_whitelist_suppression [] [] "<string>:1:1: undefined name 'export'" ["export"] none
    ⟨1, 1, "undefined name 'export'".data, by rfl, "export", by simp, by rfl⟩

/-- C10 (amended): a Rule-Engine violation converted by
`parse_contracting_line` has no position exactly when the
prefix-stripped text fails to match `Line N:` or matches with parsed
numeric value 0 (not: "starts with `Line 0`"); any position it does
carry has column 0. -/
theorem c10_contracting_position_amended (v : String) :
    ((parse_contracting_line v).position = none ↔
      (contractingMatch (stripPrefixIf "Contracting linter error: ".data v.data) = none ∨
       ∃ msg, contractingMatch (stripPrefixIf "Contracting linter error: ".data v.data)
         = some (0, msg))) ∧
    (∀ p : Position, (parse_contracting_line v).position = some p → p.column = 0) := by
  unfold parse_contracting_line
  cases hm : contractingMatch (stripPrefixIf "Contracting linter error: ".data v.data) with
  | none => simp [hm]
  | some pr =>
    obtain ⟨n, msg⟩ := pr
    by_cases hn : n = 0
    · subst hn
      simp [hm]
    · simp [hm, hn]

/-- C10 amended witness: a non-matching text gets no position; a matching
`Line 3:` text carries a position whose column is 0. -/
theorem c10_contracting_position_amended_witness :
    (parse_contracting_line "no match here").position = none ∧
    (Position.mk 2 0).column = 0 :=
  ⟨(c10_contracting_position_amended "no match here").1.mpr (Or.inl (by rfl)),
   (c10_contracting_position_amended "Line 3: x").2 ⟨2, 0⟩ (by rfl)⟩

/-- C10 counterexample: `"Line 01: foo"` starts with the string
`"Line 0"` yet is parsed with a position (line 0, column 0), refuting
"no position exactly when the message starts with `Line 0` or does not
match". -/
theorem c10_line0_counterexample :
    ("Line 01: foo".data.take "Line 0".data.length = "Line 0".data) ∧
    parse_contracting_line "Line 01: foo"
      = { message := "foo", severity := "error", position := some ⟨0, 0⟩ } := by
  constructor <;> rfl

/-! ### Helper lemmas for the traversal-level claims -/

theorem setAdd_idem {α : Type} [DecidableEq α] (l : List α) (x : α) :
    setAdd (setAdd l x) x = setAdd l x := by
  by_cases h : x ∈ l
  · simp [setAdd, h]
  · simp [setAdd, h]

theorem mem_setAdd_self {α : Type} [DecidableEq α] (l : List α) (x : α) :
    x ∈ setAdd l x := by
  by_cases h : x ∈ l <;> simp [setAdd, h]

theorem gvHeader_default (n : Node) (s : St) : gvHeader defaultConsts n s = .ok s := by
  simp [gvHeader, defaultConsts]

theorem visit_argNode_none (aln : Nat) (nm : String) (s : St) :
    visit defaultConsts (.ArgNode aln nm none) s = .ok s := rfl

theorem visitList_argNodes (ln : Nat) :
    ∀ (names : List String) (s : St),
      visitList defaultConsts (names.map (fun nm => Node.ArgNode ln nm none)) s = .ok s := by
  intro names
  induction names with
  | nil => intro s; rfl
  | cons nm rest ih =>
    intro s
    rw [List.map_cons]
    simp only [visitList, visit_argNode_none, Bind.bind, Except.bind]
    exact ih s

theorem visitOneArg_unann (ln aln : Nat) (nm : String) (s : St) :
    visitOneArg ln true s (.ArgNode aln nm none) = .ok (unannStep ln s nm) := rfl

theorem argsFold_unann (ln : Nat) :
    ∀ (names : List String) (s : St),
      List.foldlM (visitOneArg ln true) s (names.map (fun nm => Node.ArgNode ln nm none))
        = .ok (names.foldl (unannStep ln) s) := by
  intro names
  induction names with
  | nil => intro s; rfl
  | cons nm rest ih =>
    intro s
    rw [List.map_cons, List.foldlM_cons, visitOneArg_unann, List.foldl_cons]
    simp only [Bind.bind, Except.bind]
    exact ih (unannStep ln s nm)

theorem unannFold_fields (ln : Nat) :
    ∀ (names : List String) (s : St),
      (names.foldl (unannStep ln) s)._violations = s._violations ∧
      (names.foldl (unannStep ln) s)._is_one_export = s._is_one_export ∧
      (names.foldl (unannStep ln) s)._is_success = s._is_success ∧
      (names.foldl (unannStep ln) s).orm_names = s.orm_names ∧
      (names.foldl (unannStep ln) s).return_ann = s.return_ann := by
  intro names
  induction names with
  | nil => intro s; exact ⟨rfl, rfl, rfl, rfl, rfl⟩
  | cons nm rest ih =>
    intro s
    rw [List.foldl_cons]
    exact ih (unannStep ln s nm)

theorem unannFold_arg_types (ln : Nat) :
    ∀ (names : List String) (s : St), names ≠ [] →
      (names.foldl (unannStep ln) s).arg_types = setAdd s.arg_types (none, ln) := by
  intro names
  induction names with
  | nil => intro s h; exact absurd rfl h
  | cons nm rest ih =>
    intro s h
    rw [List.foldl_cons]
    by_cases hrest : rest = []
    · subst hrest; rfl
    · rw [ih (unannStep ln s nm) hrest]
      exact setAdd_idem s.arg_types (none, ln)

theorem visit_pass (ln : Nat) (s : St) : visit defaultConsts (passNode ln) s = .ok s := rfl

theorem visit_exportName (ln : Nat) (s : St) :
    visit defaultConsts (.NameNode ln "export") s = .ok s := rfl

theorem visit_argumentsNode_unann (ln : Nat) (names : List String) (s : St) :
    visit defaultConsts (.ArgumentsNode (names.map (fun nm => Node.ArgNode ln nm none))) s
      = .ok s := by
  simp only [visit, gvHeader_default, Bind.bind, Except.bind]
  exact visitList_argNodes ln names s

/-- Symbolic evaluation of the whole traversal on `unannotatedFnMod names`
from an arbitrary starting state: the export flag is set, each argument
name is recorded, the one collapsed `(None, 1)` annotation entry appears
(when `names` is nonempty), and the absent return annotation is
recorded. -/
theorem visit_unann (names : List String) (s : St) :
    visit defaultConsts (unannotatedFnMod names) s
      = .ok { names.foldl (unannStep 1) { s with _is_one_export := true } with
              return_ann := setAdd (names.foldl (unannStep 1)
                { s with _is_one_export := true }).return_ann (none, 1) } := by
  have h1 : no_nested_imports defaultConsts 1 [passNode 1] s = s := rfl
  have h2 : closuresCheck defaultConsts 1 [passNode 1] s = s := rfl
  have h3 : decoratorLoop defaultConsts 1 [.NameNode 1 "export"] s
      = ({ s with _is_one_export := true }, true) := rfl
  have h4 : ¬ (([Node.NameNode 1 "export"] : List Node).length > 1) := by decide
  have h5 : ∀ t : St, not_system_variable defaultConsts "export" 1 t = t := fun _ => rfl
  have h6 : ("export" = "rt") = False := by simp
  have h7 : (("export" ∈ defaultConsts.ILLEGAL_BUILTINS) ∧ "export" ≠ "float") = False := by
    simp [defaultConsts]
  simp only [unannotatedFnMod, visit, h1, h2, h3, if_neg h4, argsFold_unann, visitList_argNodes,
    Bind.bind, Except.bind, gvHeader_default, visitList, visit_pass, visit_exportName,
    visitOpt, pure, Except.pure, if_true, h5, h6, h7, if_false]

theorem countUnannotated_fnMod (names : List String) :
    countUnannotated (unannotatedFnMod names) = names.length := by
  simp [countUnannotated, unannotatedFnMod, List.filter_map, Function.comp]

theorem filter_isT12b_nil_of_visitMsgs (l : List String)
    (hm : ∀ m ∈ l, VisitMsg defaultConsts m) : l.filter isT12b = [] := by
  rw [List.filter_eq_nil_iff]
  intro a ha
  rw [visitMsg_not_t12 (hm a ha)]
  simp

theorem filter_isT12b_collision (orm : List String) (pairs : List (String × Nat)) :
    (collisionMsgs defaultConsts orm pairs).filter isT12b = [] := by
  rw [List.filter_eq_nil_iff]
  intro m hmem
  simp only [collisionMsgs, List.mem_map] at hmem
  obtain ⟨p, -, rfl⟩ := hmem
  have h14 : defaultConsts.VIOLATION_TRIGGERS 14 = defaultTriggers 14 := rfl
  have hcf := isT12b_colonForm (defaultTriggers 14) "" p.2 (by decide) (by decide)
  rw [str_append_empty] at hcf
  rw [h14, hcf]
  simp

theorem annotationMsgs_visitMsg (entries : List (Option String × Nat)) :
    ∀ m ∈ annotationMsgs defaultConsts entries, VisitMsg defaultConsts m := by
  intro m hmem
  simp only [annotationMsgs, List.mem_flatMap] at hmem
  obtain ⟨p, -, hm2⟩ := hmem
  rcases p with ⟨t, ln⟩
  cases t with
  | none =>
    simp only [annotationMsg, List.mem_singleton] at hm2
    subst hm2
    exact visitMsg_space ln _
  | some ty =>
    simp only [annotationMsg] at hm2
    by_cases ha : ty ∈ defaultConsts.ALLOWED_ANNOTATION_TYPES
    · rw [if_pos ha] at hm2
      cases hm2
    · rw [if_neg ha] at hm2
      simp only [List.mem_singleton] at hm2
      subst hm2
      have h0 : "Line " ++ natRepr ln ++ " : " ++ defaultConsts.VIOLATION_TRIGGERS 15
            ++ " : " ++ ty
          = "Line " ++ natRepr ln ++ " : "
            ++ (defaultConsts.VIOLATION_TRIGGERS 15 ++ " : " ++ ty) := by
        simp only [str_append_assoc]
      rw [h0]
      exact visitMsg_space ln _

theorem returnMsgs_visitMsg (entries : List (Option String × Nat)) :
    ∀ m ∈ returnMsgs defaultConsts entries, VisitMsg defaultConsts m := by
  intro m hmem
  simp only [returnMsgs, List.mem_flatMap] at hmem
  obtain ⟨p, -, hm2⟩ := hmem
  rcases p with ⟨t, ln⟩
  cases t with
  | none => cases hm2
  | some ty =>
    simp only [returnMsg, List.mem_singleton] at hm2
    subst hm2
    have h0 : "Line " ++ natRepr ln ++ " : " ++ defaultConsts.VIOLATION_TRIGGERS 17
          ++ " : " ++ ty
        = "Line " ++ natRepr ln ++ " : "
          ++ (defaultConsts.VIOLATION_TRIGGERS 17 ++ " : " ++ ty) := by
      simp only [str_append_assoc]
    rw [h0]
    exact visitMsg_space ln _

theorem filter_isT12b_export (tree : Node) (flag : Bool) :
    (exportMsgs defaultConsts tree flag).filter isT12b
      = exportMsgs defaultConsts tree flag := by
  unfold exportMsgs
  cases firstFunctionLine tree with
  | none => rfl
  | some ln =>
    cases flag with
    | true => rfl
    | false =>
      have h12 : defaultConsts.VIOLATION_TRIGGERS 12 = defaultTriggers 12 := rfl
      rw [h12]
      simp [isT12b_t12 (ln - 1)]

/-! ### Remaining claim theorems -/

/-- C3 (code bug): the "return type annotations are not permitted on
exported functions" rule can never fire.  The return-annotation block of
`visit_FunctionDef` reuses the stale loop variable `a` and therefore
writes the last argument's annotation into `arg_types` instead of
recording the return annotation; `return_annotation` only ever receives
`(None, lineno)` entries, on which `check_return_types` does nothing.
Concretely, `@export def f(x: int) -> int: pass` passes the check
cleanly, against the claim's "exactly one return-annotation violation". -/
theorem c3_return_rule_dead :
    check defaultConsts resetSt (.inr exportReturnMod) = none ∧
    (∀ (C : Consts) (lnum : Nat) (s : St), check_return_types C none lnum s = s) ∧
    (∀ (lineno : Nat) (argList : List Node) (s s' : St),
        staleReturnsBlock lineno argList s = .ok s' → s'.return_ann = s.return_ann) := by
  refine ⟨by rfl, fun C lnum s => rfl, ?_⟩
  intro lineno argList s s' h
  unfold staleReturnsBlock at h
  cases hl : argList.getLast? with
  | none => rw [hl] at h; cases h
  | some a =>
    rw [hl] at h
    cases a with
    | ArgNode aln nm ann =>
      cases ann with
      | none => simp at h
      | some annN =>
        cases annN with
        | NameNode b c =>
          simp only [Except.ok.injEq] at h
          subst h
          rfl
        | AttributeNode b v attr =>
          cases v with
          | NameNode c d =>
            simp only [Except.ok.injEq] at h
            subst h
            rfl
          | _ => simp at h
        | _ => simp at h
    | _ => simp at h

/-- C3 witness: the return-annotation block of an exported
`def f(x: int) -> int` leaves `return_annotation` untouched. -/
theorem c3_return_rule_dead_witness :
    ({ resetSt with arg_types := [(some "int", 1)] } : St).return_ann = resetSt.return_ann :=
  c3_return_rule_dead.2.2 1 [.ArgNode 1 "x" (some (.NameNode 1 "int"))] resetSt
    { resetSt with arg_types := [(some "int", 1)] } (by rfl)

/-- C4 counterexample: an exported function with two unannotated
arguments yields one "missing type annotation" violation, not two. -/
theorem c4_per_argument_counterexample :
    countUnannotated twoUnannotatedMod = 2 ∧
    check defaultConsts resetSt (.inr twoUnannotatedMod)
      = some ["Line 1 : missing type annotation"] := ⟨rfl, rfl⟩

/-- C4 (amended): for an exported function whose arguments all lack
annotations, the check emits exactly ONE "missing type annotation"
violation for the function's line, however many such arguments there are
(the recording set collapses every unannotated argument of the function
to the single entry `(None, lineno)`), not one per argument as claimed. -/
theorem c4_missing_type_collapsed (names : List String) (h : names ≠ []) :
    countUnannotated (unannotatedFnMod names) = names.length ∧
    check defaultConsts resetSt (.inr (unannotatedFnMod names))
      = some ["Line 1 : missing type annotation"] := by
  refine ⟨countUnannotated_fnMod names, ?_⟩
  have hcol := collect_proj (unannotatedFnMod names) (_reset resetSt)
  set s1 := _collect_function_defs (unannotatedFnMod names) (_reset resetSt) with hs1
  have hv := visit_unann names s1
  set F := names.foldl (unannStep 1) { s1 with _is_one_export := true } with hF
  set sv : St := { F with return_ann := setAdd F.return_ann (none, 1) } with hsv
  have hs1v : s1._violations = [] := hcol.1
  have hs1s : s1._is_success = true := hcol.2.2.1
  have hs1o : s1.orm_names = [] := hcol.2.2.2.2.1
  have hs1r : s1.return_ann = [] := hcol.2.2.2.2.2.2.1
  have hs1a : s1.arg_types = [] := hcol.2.2.2.2.2.2.2
  have hFv : F._violations = [] := ((unannFold_fields 1 names _).1).trans hs1v
  have hFe : F._is_one_export = true := (unannFold_fields 1 names _).2.1
  have hFs : F._is_success = true := ((unannFold_fields 1 names _).2.2.1).trans hs1s
  have hFo : F.orm_names = [] := ((unannFold_fields 1 names _).2.2.2.1).trans hs1o
  have hFr : F.return_ann = [] := ((unannFold_fields 1 names _).2.2.2.2).trans hs1r
  have hFa : F.arg_types = [(none, 1)] := by
    rw [hF, unannFold_arg_types 1 names _ h]
    rw [show ({ s1 with _is_one_export := true } : St).arg_types = s1.arg_types from rfl, hs1a]
    rfl
  have hsvv : sv._violations = [] := hFv
  have hsve : sv._is_one_export = true := hFe
  have hsvo : sv.orm_names = [] := hFo
  have hsva : sv.arg_types = [(none, 1)] := hFa
  have hsvr : sv.return_ann = [(none, 1)] := by
    show setAdd F.return_ann (none, 1) = [(none, 1)]
    rw [hFr]
    rfl
  obtain ⟨f1, f2, -⟩ := final_checks_spec defaultConsts (unannotatedFnMod names) sv
  have hc : collisionMsgs defaultConsts sv.orm_names sv.visited_args = [] := by
    rw [hsvo]
    simp [collisionMsgs]
  have he : exportMsgs defaultConsts (unannotatedFnMod names) sv._is_one_export = [] := by
    rw [hsve]
    unfold exportMsgs
    cases firstFunctionLine (unannotatedFnMod names) <;> simp
  have ha : annotationMsgs defaultConsts sv.arg_types = ["Line 1 : missing type annotation"] := by
    rw [hsva]
    rfl
  have hr : returnMsgs defaultConsts sv.return_ann = [] := by
    rw [hsvr]
    rfl
  have hmsgs : collisionMsgs defaultConsts sv.orm_names sv.visited_args
      ++ (exportMsgs defaultConsts (unannotatedFnMod names) sv._is_one_export
        ++ (annotationMsgs defaultConsts sv.arg_types ++ returnMsgs defaultConsts sv.return_ann))
      = ["Line 1 : missing type annotation"] := by
    rw [hc, he, ha, hr]
    simp
  have hfv : (_final_checks defaultConsts (unannotatedFnMod names) sv)._violations
      = ["Line 1 : missing type annotation"] := by
    rw [f1, hsvv, hmsgs]
    rfl
  have hfs : (_final_checks defaultConsts (unannotatedFnMod names) sv)._is_success = false := by
    rw [f2, hmsgs]
    simp
  have hrun : runTraversal defaultConsts resetSt (unannotatedFnMod names)
      = .ok (_final_checks defaultConsts (unannotatedFnMod names) sv) := by
    show visit defaultConsts (unannotatedFnMod names) s1 >>=
        (fun s => pure (_final_checks defaultConsts (unannotatedFnMod names) s))
      = .ok (_final_checks defaultConsts (unannotatedFnMod names) sv)
    rw [hv]
    rfl
  simp only [check]
  rw [hrun]
  simp [hfs, hfv]

/-- C4 witness: the amended theorem at the two-argument instance. -/
theorem c4_missing_type_collapsed_witness :
    (["x", "y"] : List String) ≠ [] ∧
    countUnannotated (unannotatedFnMod ["x", "y"]) = 2 ∧
    check defaultConsts resetSt (.inr (unannotatedFnMod ["x", "y"]))
      = some ["Line 1 : missing type annotation"] := by
  have h := c4_missing_type_collapsed ["x", "y"] (by decide)
  exact ⟨by decide, h.1, h.2⟩

/-- C5 counterexample: `faultingMod` contains a function definition (at
line 1) and no export marker is ever seen, yet no "no public entry
point" violation is emitted, because an internal fault aborts the
traversal before the finalization phase runs. -/
theorem c5_fault_counterexample :
    firstFunctionLine faultingMod = some 1 ∧
    check defaultConsts resetSt (.inr faultingMod)
      = some ["Unexpected error during linting: 'Call' object has no attribute 'id'"] ∧
    (["Unexpected error during linting: 'Call' object has no attribute 'id'"].filter isT12b)
      = [] := ⟨rfl, rfl, rfl⟩

/-- C5 (amended): when the traversal completes without an internal
fault, the finalized violation list contains exactly one "module exposes
no public entry point" message — attributed to the line immediately
preceding the first function definition found by the full-tree walk —
when no export marker was seen and the module has a function definition,
and none otherwise (in particular none when the module has no function
definition at all). -/
theorem c5_missing_export_amended (tree : Node) (sv : St)
    (h : visit defaultConsts tree (_collect_function_defs tree (_reset resetSt)) = .ok sv) :
    ((_final_checks defaultConsts tree sv)._violations).filter isT12b
      = (match firstFunctionLine tree with
         | some ln =>
           if sv._is_one_export = false then
             ["Line " ++ natRepr (ln - 1) ++ ": " ++ defaultTriggers 12]
           else []
         | none => []) := by
  obtain ⟨⟨l, hv, hm, -⟩, -⟩ := visit_frame defaultConsts tree _ sv h
  obtain ⟨f1, -, -⟩ := final_checks_spec defaultConsts tree sv
  have hcv : (_collect_function_defs tree (_reset resetSt))._violations = [] :=
    (collect_proj tree (_reset resetSt)).1
  rw [f1, hv, hcv]
  simp only [List.nil_append, List.filter_append]
  rw [filter_isT12b_nil_of_visitMsgs l hm, filter_isT12b_collision,
    filter_isT12b_nil_of_visitMsgs _ (annotationMsgs_visitMsg sv.arg_types),
    filter_isT12b_nil_of_visitMsgs _ (returnMsgs_visitMsg sv.return_ann),
    filter_isT12b_export]
  simp only [List.nil_append, List.append_nil]
  unfold exportMsgs
  cases hf : firstFunctionLine tree with
  | none => rfl
  | some ln =>
    by_cases he : sv._is_one_export = false <;> simp [he, defaultConsts]

/-- C5 witness: the amended theorem instantiated at a module whose only
function (line 2, no decorator) triggers the export-presence check,
producing the single message attributed to line 1. -/
theorem c5_missing_export_amended_witness :
    ((_final_checks defaultConsts noExportMod
        { resetSt with _functions := ["f"] })._violations).filter isT12b
      = ["Line 1: module exposes no public entry point"] := by
  have h := c5_missing_export_amended noExportMod { resetSt with _functions := ["f"] } (by rfl)
  rw [h]
  rfl

/-- C6 counterexample: `balances = Hash()` followed by an UNDECORATED
`def f(balances): pass` produces the storage-collision violation, so a
collision can come from a function that does not bear the export
marker. -/
theorem c6_unexported_collision_counterexample :
    check defaultConsts resetSt (.inr collisionMod)
      = some ["Line 2: argument name shadows storage declaration",
              "Line 1: module exposes no public entry point"] := rfl

/-- C6 (amended): the argument-name recording of `visit_FunctionDef`
happens for every function regardless of the export marker — whenever
the per-argument step returns normally, the `(name, lineno)` pair is in
`visited_args`, for `export_decorator = False` as well as `True` — and
the finalization emits a collision violation for every recorded pair
whose name is a declared storage name, so collisions are not restricted
to export-marked functions. -/
theorem c6_args_recorded_any_function :
    (∀ (lineno : Nat) (export_decorator : Bool) (aln : Nat) (nm : String)
        (ann : Option Node) (s s' : St),
        visitOneArg lineno export_decorator s (.ArgNode aln nm ann) = .ok s' →
        (nm, lineno) ∈ s'.visited_args) ∧
    (∀ (C : Consts) (tree : Node) (s : St) (p : String × Nat),
        p ∈ s.visited_args → p.1 ∈ s.orm_names →
        ("Line " ++ natRepr p.2 ++ ": " ++ C.VIOLATION_TRIGGERS 14)
          ∈ (_final_checks C tree s)._violations) := by
  constructor
  · intro lineno ed aln nm ann s s' h
    have hmem := mem_setAdd_self s.visited_args (nm, lineno)
    simp only [visitOneArg] at h
    cases ed with
    | false =>
      rw [if_neg (by simp)] at h
      simp only [Except.ok.injEq] at h
      subst h
      exact hmem
    | true =>
      rw [if_pos rfl] at h
      cases ann with
      | none =>
        simp only [Except.ok.injEq] at h
        subst h
        exact hmem
      | some annN =>
        cases annN with
        | NameNode a annId =>
          simp only [Except.ok.injEq] at h
          subst h
          exact hmem
        | AttributeNode a v attr =>
          cases v with
          | NameNode b vid =>
            simp only [Except.ok.injEq] at h
            subst h
            exact hmem
          | _ => simp at h
        | _ => simp at h
  · intro C tree s p hp ho
    obtain ⟨f1, -, -⟩ := final_checks_spec C tree s
    rw [f1]
    have hmem : ("Line " ++ natRepr p.2 ++ ": " ++ C.VIOLATION_TRIGGERS 14)
        ∈ collisionMsgs C s.orm_names s.visited_args := by
      simp only [collisionMsgs, List.mem_map]
      exact ⟨p, List.mem_filter.mpr ⟨hp, by simpa using ho⟩, rfl⟩
    simp only [List.mem_append]
    exact Or.inr (Or.inl hmem)

/-- C6 witness: recording from an undecorated function's argument, and
the collision message reaching the final violation list. -/
theorem c6_args_recorded_any_function_witness :
    ("balances", 2) ∈
      ({ resetSt with visited_args := [("balances", 2)] } : St).visited_args ∧
    ("Line " ++ natRepr 2 ++ ": " ++ defaultConsts.VIOLATION_TRIGGERS 14)
      ∈ (_final_checks defaultConsts collisionMod
          { resetSt with visited_args := [("balances", 2)],
                         orm_names := ["balances"] })._violations :=
  ⟨c6_args_recorded_any_function.1 2 false 2 "balances" none resetSt
      { resetSt with visited_args := [("balances", 2)] } (by rfl),
   c6_args_recorded_any_function.2 defaultConsts collisionMod
      { resetSt with visited_args := [("balances", 2)], orm_names := ["balances"] }
      ("balances", 2) (by simp) (by simp)⟩

end XianLinter
